import Mathlib

/-
  Verification of the core data structures of `evidently-data-structures`
  (src/SpatialGrid2D.ts, src/FastPool.ts, src/SlowPool.ts).

  The embedding uses exact rational arithmetic (`ℚ`) for JavaScript numbers:
  every coordinate that reaches an arithmetic operation in the source is a
  finite, small number for which IEEE doubles behave exactly.  JavaScript's
  `| 0` truncation-toward-zero is modelled by `jsTruncDiv`.  Values of the
  element type `T` are compared with `DecidableEq`, standing for JavaScript
  reference equality (`===`).

  Operations that can throw return an `Except` outcome TOGETHER with the
  post-state, because a JavaScript exception leaves the mutated object
  observable to the caller.  An out-of-range bucket access (which in
  JavaScript would surface as a `TypeError` on `undefined`) is modelled by
  the `typeError` outcome; it is unreachable from well-formed states.
-/

namespace EDS

/-- Decidable equality of `Except` outcomes, for concrete evaluations. -/
instance {e a : Type} [DecidableEq e] [DecidableEq a] : DecidableEq (Except e a) := fun x y =>
  match x, y with
  | .ok u, .ok w => if h : u = w then isTrue (by rw [h]) else isFalse (by simp [h])
  | .error u, .error w => if h : u = w then isTrue (by rw [h]) else isFalse (by simp [h])
  | .ok _, .error _ => isFalse (by simp)
  | .error _, .ok _ => isFalse (by simp)

/-- JavaScript `a / b | 0` for quotients in `Int32` range: the exact rational
quotient truncated toward zero.  Computed on numerators and denominators with
`Int.tdiv` (truncating integer division) so that it evaluates by kernel
reduction; `b = 0` gives `0`, as `ToInt32(±Infinity) = 0` in JavaScript. -/
def jsTruncDiv (a b : ℚ) : ℤ := (a.num * (b.den : ℤ)).tdiv ((a.den : ℤ) * b.num)

/-- JavaScript `Math.ceil(a / b)` for a finite quotient: the exact rational
quotient rounded up, computed on numerators and denominators.  (`b = 0` would
make the quotient infinite — the source would then loop forever allocating
buckets — and is mapped to `0` here.) -/
def jsCeilDiv (a b : ℚ) : ℤ :=
  let p := a.num * (b.den : ℤ)
  let q := (a.den : ℤ) * b.num
  if q = 0 then 0
  else if q < 0 then -((p).fdiv (-q)) else -((-p).fdiv q)

/-- JavaScript array element assignment `a[i] = v`: in-range writes update,
out-of-range writes extend the array (padding holes with `undefined`). -/
def jsSet {α : Type} (l : List (Option α)) (i : ℕ) (v : α) : List (Option α) :=
  if i < l.length then l.set i (some v)
  else l ++ List.replicate (i - l.length) none ++ [some v]

/-- The wrapper record of `SpatialGrid2D` (interface `Item` in the source):
a position-tagged payload. -/
structure Item (T : Type) where
  x : ℚ
  y : ℚ
  value : T
deriving DecidableEq, Repr

/-- The distinguishable error outcomes of the spatial grid.  The source
throws plain `Error`s with distinct messages; `typeError` stands for the
JavaScript `TypeError` raised by indexing `undefined` buckets. -/
inductive GridError where
  | boundsError
  | notFoundError
  | typeError
deriving DecidableEq, Repr

/-- `_buckets` of `SpatialGrid2D`: a jagged array indexed first by bucket X,
then bucket Y, holding a list of records each. -/
abbrev Buckets (T : Type) := List (List (List (Item T)))

/-- Read the bucket at natural indices `(ix, iy)` if both are in range. -/
def getCellN {T : Type} (b : Buckets T) (ix iy : ℕ) : Option (List (Item T)) :=
  (b.get? ix).bind fun row => row.get? iy

/-- Read the bucket at integer indices, `none` when either is negative
(JavaScript: `buckets[-1]` is `undefined`). -/
def getCell {T : Type} (b : Buckets T) (ix iy : ℤ) : Option (List (Item T)) :=
  if 0 ≤ ix ∧ 0 ≤ iy then getCellN b ix.toNat iy.toNat else none

/-- Replace the bucket at natural indices `(ix, iy)`. -/
def setCellN {T : Type} (b : Buckets T) (ix iy : ℕ) (cell : List (Item T)) : Buckets T :=
  match b.get? ix with
  | none => b
  | some row => b.set ix (row.set iy cell)

/-- Apply `f` to the bucket at `(ix, iy)`; `none` when the access would hit
`undefined` in JavaScript. -/
def modifyCell {T : Type} (b : Buckets T) (ix iy : ℤ) (f : List (Item T) → List (Item T)) :
    Option (Buckets T) :=
  match getCell b ix iy with
  | none => none
  | some cell => some (setCellN b ix.toNat iy.toNat (f cell))

/-- The total record count of a bucket array (the sum of all bucket
lengths). -/
def sumCounts {T : Type} (b : Buckets T) : ℕ :=
  (b.map fun row => (row.map List.length).sum).sum

/-- The observable state of a `SpatialGrid2D` instance. -/
structure SpatialGrid2D (T : Type) where
  gridWidth : ℚ
  gridHeight : ℚ
  bucketWidth : ℚ
  bucketHeight : ℚ
  size : ℤ
  buckets : Buckets T
deriving DecidableEq, Repr

namespace SpatialGrid2D

variable {T : Type} [DecidableEq T]

/-- The bounds test shared by `get`, `insertAt`, `removeAt`, `removeAllAt`:
`x < 0 || x >= this._gridWidth || y < 0 || y >= this._gridHeight`. -/
def outOfBounds (s : SpatialGrid2D T) (x y : ℚ) : Bool :=
  decide (x < 0) || decide (s.gridWidth ≤ x) || decide (y < 0) || decide (s.gridHeight ≤ y)

/-- The coordinate-match test `item.x === x && item.y === y` used by `get`
and `removeAllAt`. -/
def coordPred (x y : ℚ) : Item T → Bool :=
  fun it => decide (it.x = x) && decide (it.y = y)

/-- The record-match test of `removeAt`:
`item.x === x && item.y === y && item.value === element`. -/
def matchPred (x y : ℚ) (v : T) : Item T → Bool :=
  fun it => decide (it.x = x) && decide (it.y = y) && decide (it.value = v)

/-- Bucket X index: `x / this._bucketWidth | 0`. -/
def bxIdx (s : SpatialGrid2D T) (x : ℚ) : ℤ := jsTruncDiv x s.bucketWidth

/-- Bucket Y index: `y / this._bucketHeight | 0`. -/
def byIdx (s : SpatialGrid2D T) (y : ℚ) : ℤ := jsTruncDiv y s.bucketHeight

/-- The constructor `new SpatialGrid2D(gridWidth, gridHeight, bucketWidth,
bucketHeight)`: validates each dimension (integer, ≥ 1) and allocates
`ceil(gridWidth/bucketWidth) × ceil(gridHeight/bucketHeight)` empty buckets. -/
def mk2D (gridWidth gridHeight bucketWidth bucketHeight : ℚ) :
    Option (SpatialGrid2D T) :=
  if gridWidth < 1 ∨ gridWidth.den ≠ 1 then none
  else if gridHeight < 1 ∨ gridHeight.den ≠ 1 then none
  else if bucketWidth < 1 ∨ bucketWidth.den ≠ 1 then none
  else if bucketHeight < 1 ∨ bucketHeight.den ≠ 1 then none
  else some
    { gridWidth := gridWidth
      gridHeight := gridHeight
      bucketWidth := bucketWidth
      bucketHeight := bucketHeight
      size := 0
      buckets := List.replicate (jsCeilDiv gridWidth bucketWidth).toNat
        (List.replicate (jsCeilDiv gridHeight bucketHeight).toNat []) }

/-- `get(x, y)`: bounds check, then collect, from the owning bucket only, the
values of records whose stored coordinates equal `(x, y)` exactly. -/
def get (s : SpatialGrid2D T) (x y : ℚ) : Except GridError (List T) :=
  if s.outOfBounds x y then .error .boundsError
  else
    match getCell s.buckets (s.bxIdx x) (s.byIdx y) with
    | none => .error .typeError
    | some cell =>
        .ok ((cell.filter (coordPred x y)).map Item.value)

/-- `insertAt(x, y, element)`: bounds check, stamp a pool record with
`(x, y, element)`, push it onto the owning bucket, increment `_size`. -/
def insertAt (s : SpatialGrid2D T) (x y : ℚ) (v : T) :
    Except GridError Unit × SpatialGrid2D T :=
  if s.outOfBounds x y then (.error .boundsError, s)
  else
    match modifyCell s.buckets (s.bxIdx x) (s.byIdx y) (fun cell => cell ++ [⟨x, y, v⟩]) with
    | none => (.error .typeError, s)
    | some b => (.ok (), { s with buckets := b, size := s.size + 1 })

/-- The scan-and-swap-remove loop of `removeAt`/`removeAllAt`:

    for (let i = 0; i < bucketLength; i++)
      if (match) { bucket[i--] = bucket[--bucketLength]; ... }
    bucket.length = bucketLength;

`i` is re-examined after a swap; the final truncation is `take len`.  Returns
the resulting bucket and the number of removed records. -/
def removeLoopAux (p : Item T → Bool) :
    ℕ → List (Item T) → ℕ → ℕ → ℕ → List (Item T) × ℕ
  | 0, bucket, _i, len, removed => (bucket.take len, removed)
  | n + 1, bucket, i, len, removed =>
    match bucket.get? i with
    | none => (bucket.take len, removed)
    | some item =>
      if p item then
        match bucket.get? (len - 1) with
        | none => (bucket.take len, removed)
        | some last => removeLoopAux p n (bucket.set i last) i (len - 1) (removed + 1)
      else removeLoopAux p n bucket (i + 1) len removed

/-- Entry point of the loop: the structural fuel `len - i` counts the
remaining iterations (`i < len` iff the fuel is positive; a matching
iteration keeps `i` and lowers `len`, a non-matching one raises `i`, so the
fuel tracks `len - i` exactly). -/
def removeLoop (p : Item T → Bool) (bucket : List (Item T)) (i len removed : ℕ) :
    List (Item T) × ℕ :=
  removeLoopAux p (len - i) bucket i len removed

/-- `removeAt(x, y, element)`: bounds check, swap-remove every record of the
owning bucket matching the coordinate and the value by reference, decrement
`_size` per removal, and throw `NotFoundError` afterwards when nothing
matched (the state mutation, vacuous in that case, has already happened). -/
def removeAt (s : SpatialGrid2D T) (x y : ℚ) (v : T) :
    Except GridError Unit × SpatialGrid2D T :=
  if s.outOfBounds x y then (.error .boundsError, s)
  else
    match getCell s.buckets (s.bxIdx x) (s.byIdx y) with
    | none => (.error .typeError, s)
    | some cell =>
      let res := removeLoop (matchPred x y v) cell 0 cell.length 0
      match modifyCell s.buckets (s.bxIdx x) (s.byIdx y) (fun _ => res.1) with
      | none => (.error .typeError, s)
      | some b =>
        let s1 : SpatialGrid2D T := { s with buckets := b, size := s.size - (res.2 : ℤ) }
        if res.2 = 0 then (.error .notFoundError, s1) else (.ok (), s1)

/-- `removeAllAt(x, y)`: like `removeAt` but matching on the coordinate only,
and with no `NotFoundError`. -/
def removeAllAt (s : SpatialGrid2D T) (x y : ℚ) :
    Except GridError Unit × SpatialGrid2D T :=
  if s.outOfBounds x y then (.error .boundsError, s)
  else
    match getCell s.buckets (s.bxIdx x) (s.byIdx y) with
    | none => (.error .typeError, s)
    | some cell =>
      let res := removeLoop (coordPred x y) cell 0 cell.length 0
      match modifyCell s.buckets (s.bxIdx x) (s.byIdx y) (fun _ => res.1) with
      | none => (.error .typeError, s)
      | some b => (.ok (), { s with buckets := b, size := s.size - (res.2 : ℤ) })

/-- `move(fromX, fromY, toX, toY, element)`: exactly `removeAt` followed by
`insertAt`; not atomic. -/
def move (s : SpatialGrid2D T) (fromX fromY toX toY : ℚ) (v : T) :
    Except GridError Unit × SpatialGrid2D T :=
  match s.removeAt fromX fromY v with
  | (.error e, s1) => (.error e, s1)
  | (.ok _, s1) => s1.insertAt toX toY v

/-- All records of the grid in `forEach` traversal order (bucket row, then
bucket column, then in-bucket order). -/
def allItems (s : SpatialGrid2D T) : List (Item T) :=
  (s.buckets.map List.flatten).flatten

/-- The `(element, x, y)` argument triples `forEach(callback)` produces, in
order; the coordinates are the record's stored element coordinates. -/
def forEachCalls (s : SpatialGrid2D T) : List (T × ℚ × ℚ) :=
  s.allItems.map fun it => (it.value, it.x, it.y)

/-- `resize`'s per-record walk: destroy records outside the new grid bounds
(collecting the `(value, x, y)` destructor-callback arguments in call order,
decrementing `_size`), re-file the rest into the new bucket array. -/
def resizeLoop (gridWidth gridHeight bucketWidth bucketHeight : ℚ)
    (items : List (Item T)) (nb : Buckets T) (destroyed : List (T × ℚ × ℚ)) :
    Option (Buckets T × List (T × ℚ × ℚ)) :=
  match items with
  | [] => some (nb, destroyed)
  | it :: rest =>
    if decide (gridWidth ≤ it.x) || decide (gridHeight ≤ it.y) then
      resizeLoop gridWidth gridHeight bucketWidth bucketHeight rest nb
        (destroyed ++ [(it.value, it.x, it.y)])
    else
      match modifyCell nb (jsTruncDiv it.x bucketWidth) (jsTruncDiv it.y bucketHeight)
          (fun cell => cell ++ [it]) with
      | none => none
      | some nb1 => resizeLoop gridWidth gridHeight bucketWidth bucketHeight rest nb1 destroyed

/-- `resize(gridWidth?, gridHeight?, bucketWidth?, bucketHeight?)`: omitted
arguments keep the current value; rebuilds the bucket array and walks every
record.  Returns the list of destructor-callback invocations.  (On the
`typeError` outcome, unreachable from well-formed states, the pre-state is
returned.) -/
def resize (s : SpatialGrid2D T) (gw gh bw bh : Option ℚ) :
    Except GridError (List (T × ℚ × ℚ)) × SpatialGrid2D T :=
  let gridWidth := gw.getD s.gridWidth
  let gridHeight := gh.getD s.gridHeight
  let bucketWidth := bw.getD s.bucketWidth
  let bucketHeight := bh.getD s.bucketHeight
  let nb0 : Buckets T := List.replicate (jsCeilDiv gridWidth bucketWidth).toNat
    (List.replicate (jsCeilDiv gridHeight bucketHeight).toNat [])
  match resizeLoop gridWidth gridHeight bucketWidth bucketHeight s.allItems nb0 [] with
  | none => (.error .typeError, s)
  | some (nb, destroyed) =>
    (.ok destroyed,
      { gridWidth := gridWidth
        gridHeight := gridHeight
        bucketWidth := bucketWidth
        bucketHeight := bucketHeight
        size := s.size - (destroyed.length : ℤ)
        buckets := nb })

/-- `clear()`: releases every record (decrementing `_size` per record) and
empties every bucket, keeping the bucket array. -/
def clear (s : SpatialGrid2D T) : SpatialGrid2D T :=
  { s with
    buckets := s.buckets.map fun row => row.map fun _ => []
    size := s.size - (s.allItems.length : ℤ) }

/-- `getAll()`: every element in `forEach` order. -/
def getAll (s : SpatialGrid2D T) : List T :=
  s.allItems.map Item.value

/-- The `(element, x, y)` argument triples `getFiltered`/`getFirst` pass to
their callback, in order; the coordinates are the BUCKET-ARRAY indices of
the bucket being scanned. -/
def getFilteredCalls (s : SpatialGrid2D T) : List (T × ℕ × ℕ) :=
  s.buckets.enum.flatMap fun p =>
    p.2.enum.flatMap fun q =>
      q.2.map fun it => (it.value, p.1, q.1)

/-- `getFiltered(callback)`: keeps the elements for which the callback —
invoked with the bucket-array indices — returns true. -/
def getFiltered (s : SpatialGrid2D T) (cb : T → ℕ → ℕ → Bool) : List T :=
  s.buckets.enum.flatMap fun p =>
    p.2.enum.flatMap fun q =>
      (q.2.filter fun it => cb it.value p.1 q.1).map Item.value

/-- `getFirst(callback)`: the first element (in the same traversal order) for
which the callback — invoked with the bucket-array indices — returns true. -/
def getFirst (s : SpatialGrid2D T) (cb : T → ℕ → ℕ → Bool) : Option T :=
  ((s.buckets.enum.flatMap fun p =>
    p.2.enum.flatMap fun q =>
      q.2.map fun it => (it.value, p.1, q.1)).find? fun t => cb t.1 t.2.1 t.2.2).map
    Prod.fst

/-- The structural well-formedness the constructor establishes: the bucket
array has exactly the allocated dimensions. -/
def Rectangular (s : SpatialGrid2D T) : Prop :=
  s.buckets.length = (jsCeilDiv s.gridWidth s.bucketWidth).toNat ∧
  ∀ row ∈ s.buckets, row.length = (jsCeilDiv s.gridHeight s.bucketHeight).toNat

/-- Positive bucket dimensions (the constructor validates them as positive
integers; positivity is all the index computations need). -/
def PosDims (s : SpatialGrid2D T) : Prop := 0 < s.bucketWidth ∧ 0 < s.bucketHeight

/-- An in-bounds coordinate pair. -/
def InBounds (s : SpatialGrid2D T) (x y : ℚ) : Prop :=
  0 ≤ x ∧ x < s.gridWidth ∧ 0 ≤ y ∧ y < s.gridHeight

instance (s : SpatialGrid2D T) : Decidable s.Rectangular := by
  unfold Rectangular
  infer_instance

instance (s : SpatialGrid2D T) : Decidable s.PosDims := by
  unfold PosDims
  infer_instance

instance (s : SpatialGrid2D T) (x y : ℚ) : Decidable (s.InBounds x y) := by
  unfold InBounds
  infer_instance

end SpatialGrid2D

/-- The error outcomes of the checked pool variant (`SlowPool`).  The source
throws plain `Error`s; the spec names them `DuplicateRecordError` and
`InvalidReleaseError`. -/
inductive PoolError where
  | duplicateRecordError
  | invalidReleaseError
deriving DecidableEq, Repr

/-- The unchecked pool (`FastPool`).  The factory callback `onHydrate` is
modelled as a function of the invocation counter: its `i`-th call returns
`onHydrate i`, and `hydrations` counts the calls made so far.  `releaseLog`
records the arguments of the `onRelease` callback in call order. -/
structure FastPool (T : Type) where
  pool : List (Option T)
  indexInPool : ℕ
  initialSize : ℕ
  autoHydrateSize : ℕ
  onHydrate : ℕ → T
  hydrations : ℕ
  releaseLog : List T

namespace FastPool

variable {T : Type}

/-- The filling loop of `FastPool.hydrate`:
`while (objectsToCreate-- > 0) this._pool[this._indexInPool++] = this._onHydrate();`. -/
def hydrateLoop (onHydrate : ℕ → T) :
    ℕ → List (Option T) → ℕ → ℕ → List (Option T) × ℕ × ℕ
  | 0, pool, idx, hyd => (pool, idx, hyd)
  | n + 1, pool, idx, hyd =>
    hydrateLoop onHydrate n (jsSet pool idx (onHydrate hyd)) (idx + 1) (hyd + 1)

/-- `hydrate(objectsToCreate)`: first `this._pool.length += objectsToCreate`
(padding with `undefined`), then the filling loop. -/
def hydrate (p : FastPool T) (n : ℕ) : FastPool T :=
  let r := hydrateLoop p.onHydrate n (p.pool ++ List.replicate n none) p.indexInPool p.hydrations
  { p with pool := r.1, indexInPool := r.2.1, hydrations := r.2.2 }

/-- The `FastPool` constructor: stores the callbacks and configuration
(defaults `initialSize = 10`, `autoHydrateSize = 10` supplied by the caller
of this model) and hydrates `initialSize` objects. -/
def mkPool (onHydrate : ℕ → T) (initialSize autoHydrateSize : ℕ) : FastPool T :=
  hydrate
    { pool := [], indexInPool := 0, initialSize := initialSize
      autoHydrateSize := autoHydrateSize, onHydrate := onHydrate
      hydrations := 0, releaseLog := [] } initialSize

/-- `getOne()`: hydrate `autoHydrateSize` objects when none is available,
then return `this._pool[--this._indexInPool]`.  (With `autoHydrateSize = 0`
the source would read `_pool[-1] = undefined` and leave `_indexInPool = -1`;
here the read yields `none` and the truncated decrement leaves `0`.) -/
def getOne (p : FastPool T) : Option T × FastPool T :=
  let p1 := if p.indexInPool = 0 then p.hydrate p.autoHydrateSize else p
  (p1.pool.getD (p1.indexInPool - 1) none, { p1 with indexInPool := p1.indexInPool - 1 })

/-- `release(object)`: `this._pool[this._indexInPool++] = object`, then the
optional `onRelease` callback. -/
def release (p : FastPool T) (o : T) : FastPool T :=
  { p with
    pool := jsSet p.pool p.indexInPool o
    indexInPool := p.indexInPool + 1
    releaseLog := p.releaseLog ++ [o] }

/-- Getter `availableObjects`. -/
def availableObjects (p : FastPool T) : ℕ := p.indexInPool

/-- Getter `totalObjects`. -/
def totalObjects (p : FastPool T) : ℕ := p.pool.length

/-- Getter `usedObjects`. -/
def usedObjects (p : FastPool T) : ℕ := p.totalObjects - p.availableObjects

/-- Iterated `getOne`, discarding the returned objects. -/
def getOnes (p : FastPool T) : ℕ → FastPool T
  | 0 => p
  | n + 1 => (p.getOne).2.getOnes n

end FastPool

/-- Lookup in the model of `Map<TObject, boolean>` (keyed by reference
identity): `map.has(k)`. -/
def mapHas {T : Type} [DecidableEq T] (m : List (T × Bool)) (k : T) : Bool :=
  m.any fun e => decide (e.1 = k)

/-- `map.get(k)`. -/
def mapGet {T : Type} [DecidableEq T] (m : List (T × Bool)) (k : T) : Option Bool :=
  (m.find? fun e => decide (e.1 = k)).map Prod.snd

/-- `map.set(k, b)`: update in place when present, else append. -/
def mapSet {T : Type} [DecidableEq T] (m : List (T × Bool)) (k : T) (b : Bool) :
    List (T × Bool) :=
  if mapHas m k then m.map fun e => if e.1 = k then (k, b) else e
  else m ++ [(k, b)]

/-- The checked pool (`SlowPool`): like `FastPool` plus the
`_isAvailableMap` identity map guarding hydration and release. -/
structure SlowPool (T : Type) where
  pool : List (Option T)
  indexInPool : ℕ
  isAvailableMap : List (T × Bool)
  initialSize : ℕ
  autoHydrateSize : ℕ
  onHydrate : ℕ → T
  hydrations : ℕ
  releaseLog : List T

namespace SlowPool

variable {T : Type} [DecidableEq T]

/-- The filling loop of `SlowPool.hydrate`: each iteration calls the
factory, throws `DuplicateRecordError` when the returned instance is already
tracked, else marks it available and stores it. -/
def hydrateLoop : ℕ → SlowPool T → Except PoolError (SlowPool T)
  | 0, s => .ok s
  | n + 1, s =>
    let nextObject := s.onHydrate s.hydrations
    let s1 : SlowPool T := { s with hydrations := s.hydrations + 1 }
    if mapHas s1.isAvailableMap nextObject then .error .duplicateRecordError
    else
      hydrateLoop n
        { s1 with
          isAvailableMap := mapSet s1.isAvailableMap nextObject true
          pool := jsSet s1.pool s1.indexInPool nextObject
          indexInPool := s1.indexInPool + 1 }

/-- `hydrate(objectsToCreate)`: `this._pool.length += objectsToCreate`, then
the checked filling loop. -/
def hydrate (s : SlowPool T) (n : ℕ) : Except PoolError (SlowPool T) :=
  hydrateLoop n { s with pool := s.pool ++ List.replicate n none }

/-- The `SlowPool` constructor: stores callbacks and configuration and
hydrates `initialSize` objects (which can already throw
`DuplicateRecordError`). -/
def mkPool (onHydrate : ℕ → T) (initialSize autoHydrateSize : ℕ) :
    Except PoolError (SlowPool T) :=
  hydrate
    { pool := [], indexInPool := 0, isAvailableMap := []
      initialSize := initialSize, autoHydrateSize := autoHydrateSize
      onHydrate := onHydrate, hydrations := 0, releaseLog := [] } initialSize

/-- `getOne()`: hydrate on exhaustion, pop `this._pool[--this._indexInPool]`
and mark it unavailable in `_isAvailableMap`. -/
def getOne (s : SlowPool T) : Except PoolError (Option T × SlowPool T) :=
  (if s.indexInPool = 0 then s.hydrate s.autoHydrateSize else .ok s).map fun s1 =>
    match s1.pool.getD (s1.indexInPool - 1) none with
    | some o =>
        (some o,
          { s1 with
            indexInPool := s1.indexInPool - 1
            isAvailableMap := mapSet s1.isAvailableMap o false })
    | none => (none, { s1 with indexInPool := s1.indexInPool - 1 })

/-- `release(object)`: throws `InvalidReleaseError` when the object is not
tracked, or when its map entry is `true` (already available); otherwise
stores it back and calls `onRelease`.  Faithful to the source: the map entry
of the released object is NOT set back to `true`. -/
def release (s : SlowPool T) (o : T) : Except PoolError (SlowPool T) :=
  if ¬ mapHas s.isAvailableMap o then .error .invalidReleaseError
  else if mapGet s.isAvailableMap o = some true then .error .invalidReleaseError
  else
    .ok
      { s with
        pool := jsSet s.pool s.indexInPool o
        indexInPool := s.indexInPool + 1
        releaseLog := s.releaseLog ++ [o] }

/-- Getter `availableObjects`. -/
def availableObjects (s : SlowPool T) : ℕ := s.indexInPool

/-- Getter `totalObjects`. -/
def totalObjects (s : SlowPool T) : ℕ := s.pool.length

/-- Getter `usedObjects`. -/
def usedObjects (s : SlowPool T) : ℕ := s.totalObjects - s.availableObjects

/-- Iterated `getOne`, discarding the returned objects and propagating
errors. -/
def getOnes (s : SlowPool T) : ℕ → Except PoolError (SlowPool T)
  | 0 => .ok s
  | n + 1 => s.getOne.bind fun r => r.2.getOnes n

/-- Every tracked key and every pooled object is a previous factory result.
This holds for freshly constructed pools and is preserved by every
operation; with an injective factory it makes hydration duplicate-free. -/
def Fresh (s : SlowPool T) : Prop :=
  (∀ t, mapHas s.isAvailableMap t = true → ∃ i, i < s.hydrations ∧ s.onHydrate i = t) ∧
  (∀ o, some o ∈ s.pool → ∃ i, i < s.hydrations ∧ s.onHydrate i = o)

end SlowPool

/-! ### Concrete states used by witnesses and counterexamples -/

/-- A 9×7 grid with 3×4 buckets and no records (the state the constructor
produces), used as concrete input for witnesses. -/
def gridW : SpatialGrid2D ℕ :=
  ⟨9, 7, 3, 4, 0, [[[], []], [[], []], [[], []]]⟩

/-- A populated 2×1 grid with one 2×1 bucket holding the value `7` stored at
element coordinate `(1, 0)` — the bucket that owns it has bucket-array
indices `(0, 0)`. -/
def gridMismatch : SpatialGrid2D ℕ :=
  ⟨2, 1, 2, 1, 1, [[[⟨1, 0, 7⟩]]]⟩

/-- The owning bucket of coordinate `(1, 1)` in `gridC4`: two records, the
value `5` stored once and `8` stored once, both at `(1, 1)`. -/
def cellC4 : List (Item ℕ) := [⟨1, 1, 5⟩, ⟨1, 1, 8⟩]

/-- A 9×7 grid with 3×4 buckets holding `cellC4` in bucket `(0, 0)`. -/
def gridC4 : SpatialGrid2D ℕ :=
  ⟨9, 7, 3, 4, 2, [[cellC4, []], [[], []], [[], []]]⟩

/-- A 2×1 grid with 1×1 buckets holding the value `7` at `(0, 0)`: the
state used to exhibit `move`'s non-atomicity. -/
def gridC2 : SpatialGrid2D ℕ :=
  ⟨2, 1, 1, 1, 1, [[[⟨0, 0, 7⟩]], [[]]]⟩

/-- A 2×1 grid with 1×1 buckets holding the value `7` TWICE at `(0, 0)`:
the duplicate-value state used against the move claim. -/
def gridC5 : SpatialGrid2D ℕ :=
  ⟨2, 1, 1, 1, 2, [[[⟨0, 0, 7⟩, ⟨0, 0, 7⟩]], [[]]]⟩

/-- A 4×4 grid with 2×2 buckets holding the value `10` at `(1, 1)` (bucket
`(0, 0)`) and the value `11` at `(3, 3)` (bucket `(1, 1)`): the state used
for the resize witness. -/
def gridC6 : SpatialGrid2D ℕ :=
  ⟨4, 4, 2, 2, 2, [[[⟨1, 1, 10⟩], []], [[], [⟨3, 3, 11⟩]]]⟩

/-- The mutating operations quantified over by the size/`forEach` invariant:
each constructor carries the arguments of the corresponding method call. -/
inductive GridOp (T : Type) where
  | insertAt (x y : ℚ) (v : T)
  | removeAt (x y : ℚ) (v : T)
  | removeAllAt (x y : ℚ)
  | move (fromX fromY toX toY : ℚ) (v : T)
  | resize (gw gh bw bh : Option ℚ)
  | clear

/-- Perform one operation, requiring it to complete without throwing:
`none` when the call throws. -/
def gridStep {T : Type} [DecidableEq T] (s : SpatialGrid2D T) :
    GridOp T → Option (SpatialGrid2D T)
  | .insertAt x y v =>
    match s.insertAt x y v with
    | (.ok _, s1) => some s1
    | (.error _, _) => none
  | .removeAt x y v =>
    match s.removeAt x y v with
    | (.ok _, s1) => some s1
    | (.error _, _) => none
  | .removeAllAt x y =>
    match s.removeAllAt x y with
    | (.ok _, s1) => some s1
    | (.error _, _) => none
  | .move fromX fromY toX toY v =>
    match s.move fromX fromY toX toY v with
    | (.ok _, s1) => some s1
    | (.error _, _) => none
  | .resize gw gh bw bh =>
    match s.resize gw gh bw bh with
    | (.ok _, s1) => some s1
    | (.error _, _) => none
  | .clear => some s.clear

/-- Run a sequence of operations, requiring every call to succeed. -/
def runOps {T : Type} [DecidableEq T] (s : SpatialGrid2D T) :
    List (GridOp T) → Option (SpatialGrid2D T)
  | [] => some s
  | op :: rest =>
    match gridStep s op with
    | none => none
    | some s1 => runOps s1 rest

/-- The operation sequence of the C1 witness: two inserts into different
buckets followed by a remove. -/
def opsC1 : List (GridOp ℕ) :=
  [.insertAt 1 1 5, .insertAt 4 5 6, .removeAt 1 1 5]

/-- The state `opsC1` reaches from the freshly constructed 9×7 grid. -/
def gridC1res : SpatialGrid2D ℕ :=
  ⟨9, 7, 3, 4, 1, [[[], []], [[], [⟨4, 5, 6⟩]], [[], []]]⟩

/-- A `SlowPool` over `ℕ` whose factory returns the same instance `0` every
time. -/
def slowPoolConst : Except PoolError (SlowPool ℕ) := SlowPool.mkPool (fun _ => 0) 5 10

/-- A `SlowPool` over `ℕ` with distinct instances and `initialSize = 1`. -/
def slowPoolSeq : Except PoolError (SlowPool ℕ) := SlowPool.mkPool (fun i => i) 1 10

/-- Acquire the single object of `slowPoolSeq`, release it, and release it a
second time (a double-release). -/
def slowPoolDoubleRelease : Except PoolError (SlowPool ℕ) :=
  ((slowPoolSeq.bind SlowPool.getOne).bind fun r => r.2.release 0).bind fun s =>
    s.release 0


/-! ### Arithmetic bridges: the integer computations agree with the exact
rational floor/ceil for the in-range cases the source can reach. -/

theorem rat_div_eq_intCast (a b : ℚ) :
    a / b = ((a.num * (b.den : ℤ) : ℤ) : ℚ) / (((a.den : ℤ) * b.num : ℤ) : ℚ) := by
  by_cases hb : b = 0
  · subst hb
    simp
  · have hbn : (b.num : ℚ) ≠ 0 := by
      simpa using Rat.num_ne_zero.mpr hb
    have had : ((a.den : ℤ) : ℚ) ≠ 0 := by
      have := a.den_nz
      push_cast
      simpa using this
    have hbd : ((b.den : ℤ) : ℚ) ≠ 0 := by
      have := b.den_nz
      push_cast
      simpa using this
    conv_lhs => rw [← Rat.num_div_den a, ← Rat.num_div_den b]
    push_cast
    field_simp
    try ring

theorem jsTruncDiv_eq_floor {a b : ℚ} (hb : 0 < b) (ha : 0 ≤ a) :
    jsTruncDiv a b = ⌊a / b⌋ := by
  have hbnum : 0 < b.num := Rat.num_pos.mpr hb
  have hanum : 0 ≤ a.num := Rat.num_nonneg.mpr ha
  have hp : (0 : ℤ) ≤ a.num * (b.den : ℤ) := by positivity
  have hq : (0 : ℤ) ≤ (a.den : ℤ) * b.num := by positivity
  have hqn : ((a.den : ℤ) * b.num) = (((a.den : ℤ) * b.num).toNat : ℤ) :=
    (Int.toNat_of_nonneg hq).symm
  rw [jsTruncDiv, Int.tdiv_eq_ediv hp hq, rat_div_eq_intCast a b, hqn]
  rw [show ((((a.den : ℤ) * b.num).toNat : ℤ) : ℚ) = ((((a.den : ℤ) * b.num).toNat : ℕ) : ℚ) by
    push_cast
    try ring]
  rw [Rat.floor_intCast_div_natCast]

theorem jsCeilDiv_eq_ceil {a b : ℚ} (hb : 0 < b) :
    jsCeilDiv a b = ⌈a / b⌉ := by
  have hbnum : 0 < b.num := Rat.num_pos.mpr hb
  have hq : (0 : ℤ) < (a.den : ℤ) * b.num := by positivity
  rw [jsCeilDiv]
  simp only [if_neg hq.ne.symm, if_neg (not_lt.mpr hq.le)]
  have hfd : (-(a.num * (b.den : ℤ))).fdiv ((a.den : ℤ) * b.num) =
      (-(a.num * (b.den : ℤ))) / ((a.den : ℤ) * b.num) := Int.fdiv_eq_ediv _ hq.le
  have hceil : ⌈a / b⌉ = -⌊-(a / b)⌋ := by
    rw [Int.floor_neg, neg_neg]
  rw [hfd, hceil]
  have hqn : ((a.den : ℤ) * b.num) = (((a.den : ℤ) * b.num).toNat : ℤ) :=
    (Int.toNat_of_nonneg hq.le).symm
  have hqq : ((((a.den : ℤ) * b.num).toNat : ℕ) : ℚ) = (((a.den : ℤ) * b.num : ℤ) : ℚ) := by
    exact_mod_cast congrArg (fun z : ℤ => (z : ℚ)) hqn.symm
  have hneg : -(a / b) =
      ((-(a.num * (b.den : ℤ)) : ℤ) : ℚ) / ((((a.den : ℤ) * b.num).toNat : ℕ) : ℚ) := by
    rw [rat_div_eq_intCast a b, hqq]
    push_cast
    ring
  rw [hneg, Rat.floor_intCast_div_natCast, ← hqn]

/-- The bucket index of an in-bounds coordinate is nonnegative and below the
allocated bucket count. -/
theorem bucketIdx_range {x w bw : ℚ} (hbw : 0 < bw) (hx0 : 0 ≤ x) (hxw : x < w) :
    0 ≤ jsTruncDiv x bw ∧ jsTruncDiv x bw < jsCeilDiv w bw := by
  rw [jsTruncDiv_eq_floor hbw hx0, jsCeilDiv_eq_ceil hbw]
  constructor
  · exact Int.floor_nonneg.mpr (div_nonneg hx0 hbw.le)
  · by_contra hcon
    push_neg at hcon
    have h1 : (w / bw : ℚ) ≤ ⌈w / bw⌉ := Int.le_ceil _
    have h2 : ((⌈w / bw⌉ : ℤ) : ℚ) ≤ ((⌊x / bw⌋ : ℤ) : ℚ) := by exact_mod_cast hcon
    have h3 : ((⌊x / bw⌋ : ℤ) : ℚ) ≤ x / bw := Int.floor_le _
    have h4 : w / bw ≤ x / bw := le_trans h1 (le_trans h2 h3)
    have h5 : x / bw < w / bw := by
      exact div_lt_div_of_pos_right hxw hbw
    exact absurd h4 (not_le.mpr h5)

/-! ### Bucket-array cell lemmas -/

theorem getCellN_replicate {T : Type} (m k ix iy : ℕ) :
    getCellN (T := T) (List.replicate m (List.replicate k [])) ix iy =
      if ix < m ∧ iy < k then some [] else none := by
  rw [getCellN, List.get?_eq_getElem?, List.getElem?_replicate]
  rcases Nat.lt_or_ge ix m with h | h
  · rw [if_pos h]
    simp only [Option.some_bind]
    rw [List.get?_eq_getElem?, List.getElem?_replicate]
    rcases Nat.lt_or_ge iy k with h2 | h2
    · rw [if_pos h2, if_pos ⟨h, h2⟩]
    · rw [if_neg (Nat.not_lt.mpr h2), if_neg (by omega)]
  · rw [if_neg (Nat.not_lt.mpr h)]
    simp only [Option.none_bind]
    rw [if_neg (by omega)]

theorem sumCounts_replicate {T : Type} (m k : ℕ) :
    sumCounts (T := T) (List.replicate m (List.replicate k [])) = 0 := by
  rw [sumCounts]
  simp [List.map_replicate, List.sum_replicate]

theorem getCellN_isSome_iff {T : Type} {b : Buckets T} {ix iy : ℕ} :
    (getCellN b ix iy).isSome ↔ ∃ row, b[ix]? = some row ∧ iy < row.length := by
  rw [getCellN, List.get?_eq_getElem?]
  cases hrow : b[ix]? with
  | none => simp
  | some row =>
    simp only [Option.some_bind]
    rw [List.get?_eq_getElem?]
    constructor
    · intro h
      refine ⟨row, rfl, ?_⟩
      rcases Option.isSome_iff_exists.mp h with ⟨c, hc⟩
      exact (List.getElem?_eq_some_iff.mp hc).1
    · rintro ⟨row2, hrow2, hlen⟩
      cases hrow2
      simp [List.getElem?_eq_getElem hlen]

theorem length_setCellN {T : Type} (b : Buckets T) (ix iy : ℕ) (c : List (Item T)) :
    (setCellN b ix iy c).length = b.length := by
  rw [setCellN]
  cases b.get? ix with
  | none => rfl
  | some row => simp

theorem getCellN_setCellN_same {T : Type} {b : Buckets T} {ix iy : ℕ} {cell : List (Item T)}
    (h : getCellN b ix iy = some cell) (c : List (Item T)) :
    getCellN (setCellN b ix iy c) ix iy = some c := by
  rw [getCellN, List.get?_eq_getElem?] at h
  cases hrow : b[ix]? with
  | none => rw [hrow] at h; simp at h
  | some row =>
    rw [hrow] at h
    simp only [Option.some_bind] at h
    rw [List.get?_eq_getElem?] at h
    have hiy : iy < row.length := by
      rcases List.getElem?_eq_some_iff.mp h with ⟨hl, _⟩
      exact hl
    have hix : ix < b.length := by
      rcases List.getElem?_eq_some_iff.mp hrow with ⟨hl, _⟩
      exact hl
    rw [setCellN, List.get?_eq_getElem?, hrow]
    rw [getCellN, List.get?_eq_getElem?]
    rw [List.getElem?_set_self hix]
    simp only [Option.some_bind]
    rw [List.get?_eq_getElem?, List.getElem?_set_self hiy]

theorem getCellN_setCellN_ne {T : Type} (b : Buckets T) (ix iy ix2 iy2 : ℕ)
    (c : List (Item T)) (hne : ix2 ≠ ix ∨ iy2 ≠ iy) :
    getCellN (setCellN b ix iy c) ix2 iy2 = getCellN b ix2 iy2 := by
  rw [setCellN]
  cases hrow : b.get? ix with
  | none => rfl
  | some row =>
    rw [List.get?_eq_getElem?] at hrow
    have hix : ix < b.length := (List.getElem?_eq_some_iff.mp hrow).1
    by_cases hx : ix2 = ix
    · subst hx
      have hy : iy2 ≠ iy := by
        rcases hne with hne | hne
        · exact absurd rfl hne
        · exact hne
      rw [getCellN, getCellN, List.get?_eq_getElem?, List.get?_eq_getElem?]
      rw [List.getElem?_set_self hix, hrow]
      simp only [Option.some_bind]
      rw [List.get?_eq_getElem?, List.get?_eq_getElem?,
        List.getElem?_set_ne (fun he => hy he.symm)]
    · rw [getCellN, getCellN, List.get?_eq_getElem?, List.get?_eq_getElem?,
        List.getElem?_set_ne (fun he => hx he.symm)]

theorem sum_map_set {α : Type} (l : List α) (n : ℕ) (a : α) (f : α → ℕ) (h : n < l.length) :
    ((l.set n a).map f).sum + f (l[n]) = (l.map f).sum + f a := by
  induction l generalizing n with
  | nil => simp at h
  | cons hd tl ih =>
    cases n with
    | zero => simp [List.set]; omega
    | succ m =>
      simp only [List.set, List.map_cons, List.sum_cons, List.getElem_cons_succ]
      have := ih m (by simpa using h)
      omega

theorem sumCounts_setCellN {T : Type} {b : Buckets T} {ix iy : ℕ} {cell : List (Item T)}
    (h : getCellN b ix iy = some cell) (c : List (Item T)) :
    sumCounts (setCellN b ix iy c) + cell.length = sumCounts b + c.length := by
  rw [getCellN, List.get?_eq_getElem?] at h
  cases hrow : b[ix]? with
  | none => rw [hrow] at h; simp at h
  | some row =>
    rw [hrow] at h
    simp only [Option.some_bind] at h
    rw [List.get?_eq_getElem?] at h
    rcases List.getElem?_eq_some_iff.mp h with ⟨hiy, hcell⟩
    rcases List.getElem?_eq_some_iff.mp hrow with ⟨hix, hrowv⟩
    have hset : setCellN b ix iy c = b.set ix (row.set iy c) := by
      rw [setCellN, List.get?_eq_getElem?, hrow]
    rw [hset, sumCounts, sumCounts]
    have houter := sum_map_set b ix (row.set iy c) (fun r => (r.map List.length).sum) hix
    have hinner := sum_map_set row iy c List.length hiy
    simp only [] at houter
    rw [hrowv] at houter
    rw [hcell] at hinner
    omega

theorem getCell_nonneg {T : Type} (b : Buckets T) {ix iy : ℤ} (hx : 0 ≤ ix) (hy : 0 ≤ iy) :
    getCell b ix iy = getCellN b ix.toNat iy.toNat := if_pos ⟨hx, hy⟩

theorem modifyCell_eq_some {T : Type} {b : Buckets T} {ix iy : ℤ}
    {f : List (Item T) → List (Item T)} {b2 : Buckets T}
    (h : modifyCell b ix iy f = some b2) :
    ∃ cell, getCell b ix iy = some cell ∧
      b2 = setCellN b ix.toNat iy.toNat (f cell) := by
  rw [modifyCell] at h
  cases hcell : getCell b ix iy with
  | none => rw [hcell] at h; exact absurd h (by simp)
  | some cell =>
    rw [hcell] at h
    exact ⟨cell, rfl, by simpa using h.symm⟩

theorem modifyCell_isSome {T : Type} {b : Buckets T} {ix iy : ℤ}
    (f : List (Item T) → List (Item T)) {cell : List (Item T)}
    (h : getCell b ix iy = some cell) :
    modifyCell b ix iy f = some (setCellN b ix.toNat iy.toNat (f cell)) := by
  rw [modifyCell, h]

namespace SpatialGrid2D

variable {T : Type} [DecidableEq T]

theorem outOfBounds_eq_false {s : SpatialGrid2D T} {x y : ℚ} :
    s.outOfBounds x y = false ↔ s.InBounds x y := by
  rw [outOfBounds, InBounds]
  simp only [Bool.or_eq_false_iff, decide_eq_false_iff_not, not_lt, not_le]
  tauto

/-- For an in-bounds coordinate of a rectangular grid with positive bucket
dimensions, the owning bucket exists. -/
theorem owningCell_exists {s : SpatialGrid2D T} {x y : ℚ}
    (hrect : s.Rectangular) (hpos : s.PosDims) (hb : s.InBounds x y) :
    ∃ cell, getCell s.buckets (s.bxIdx x) (s.byIdx y) = some cell := by
  obtain ⟨hx0, hxw, hy0, hyh⟩ := hb
  obtain ⟨hxlo, hxhi⟩ := bucketIdx_range hpos.1 hx0 hxw
  obtain ⟨hylo, hyhi⟩ := bucketIdx_range hpos.2 hy0 hyh
  rw [bxIdx, byIdx, getCell_nonneg _ hxlo hylo]
  have hixlt : (jsTruncDiv x s.bucketWidth).toNat < s.buckets.length := by
    rw [hrect.1]; omega
  have hrow : s.buckets[(jsTruncDiv x s.bucketWidth).toNat]? =
      some (s.buckets[(jsTruncDiv x s.bucketWidth).toNat]) :=
    List.getElem?_eq_getElem hixlt
  have hmem : s.buckets[(jsTruncDiv x s.bucketWidth).toNat] ∈ s.buckets :=
    List.getElem_mem hixlt
  have hrowlen := hrect.2 _ hmem
  have hiylt : (jsTruncDiv y s.bucketHeight).toNat <
      (s.buckets[(jsTruncDiv x s.bucketWidth).toNat]).length := by
    rw [hrowlen]; omega
  refine ⟨s.buckets[(jsTruncDiv x s.bucketWidth).toNat][(jsTruncDiv y s.bucketHeight).toNat], ?_⟩
  rw [getCellN, List.get?_eq_getElem?, hrow]
  simp only [Option.some_bind]
  rw [List.get?_eq_getElem?, List.getElem?_eq_getElem hiylt]

/-- `get` on an in-bounds coordinate returns exactly the coordinate-matching
values of the owning bucket. -/
theorem get_spec {s : SpatialGrid2D T} {x y : ℚ} {cell : List (Item T)}
    (hb : s.InBounds x y)
    (hcell : getCell s.buckets (s.bxIdx x) (s.byIdx y) = some cell) :
    s.get x y = .ok ((cell.filter (coordPred x y)).map Item.value) := by
  rw [get, if_neg (by rw [outOfBounds_eq_false.mpr hb]; simp), hcell]

/-- `insertAt` on an in-bounds coordinate succeeds and appends the stamped
record to the owning bucket. -/
theorem insertAt_spec {s : SpatialGrid2D T} {x y : ℚ} {v : T} {cell : List (Item T)}
    (hb : s.InBounds x y)
    (hcell : getCell s.buckets (s.bxIdx x) (s.byIdx y) = some cell) :
    s.insertAt x y v =
      (.ok (), { s with
        buckets := setCellN s.buckets (s.bxIdx x).toNat (s.byIdx y).toNat (cell ++ [⟨x, y, v⟩])
        size := s.size + 1 }) := by
  rw [insertAt, if_neg (by rw [outOfBounds_eq_false.mpr hb]; simp),
    modifyCell_isSome _ hcell]

/-- `setCellN` preserves rectangularity. -/
theorem rectangular_setCellN {s : SpatialGrid2D T} (hrect : s.Rectangular)
    {ix iy : ℕ} {cell c : List (Item T)}
    (hcell : getCellN s.buckets ix iy = some c) :
    Rectangular { s with buckets := setCellN s.buckets ix iy cell } := by
  constructor
  · simpa [length_setCellN] using hrect.1
  · intro row2 hrow2
    rw [getCellN, List.get?_eq_getElem?] at hcell
    cases hrow : s.buckets[ix]? with
    | none => rw [hrow] at hcell; exact absurd hcell (by simp)
    | some row =>
      rw [hrow] at hcell
      simp only [Option.some_bind] at hcell
      rw [List.get?_eq_getElem?] at hcell
      have hiy : iy < row.length := (List.getElem?_eq_some_iff.mp hcell).1
      have hrowmem : row ∈ s.buckets := by
        rcases List.getElem?_eq_some_iff.mp hrow with ⟨hl, he⟩
        exact he ▸ List.getElem_mem hl
      simp only [setCellN, List.get?_eq_getElem?, hrow] at hrow2
      rcases List.mem_or_eq_of_mem_set hrow2 with hmem | heq
      · exact hrect.2 _ hmem
      · subst heq
        rw [List.length_set]
        exact hrect.2 _ hrowmem

/-- After an in-bounds insert, `get` at the same coordinate sees the appended
record's value. -/
theorem insertAt_get_mem {s : SpatialGrid2D T} {x y : ℚ} (v : T)
    (hrect : s.Rectangular) (hpos : s.PosDims) (hb : s.InBounds x y) :
    (s.insertAt x y v).1 = .ok () ∧
      ∃ l, ((s.insertAt x y v).2).get x y = .ok l ∧ v ∈ l := by
  obtain ⟨cell, hcell⟩ := owningCell_exists hrect hpos hb
  obtain ⟨hxlo, _⟩ := bucketIdx_range hpos.1 hb.1 hb.2.1
  obtain ⟨hylo, _⟩ := bucketIdx_range hpos.2 hb.2.2.1 hb.2.2.2
  have hxlo2 : 0 ≤ s.bxIdx x := hxlo
  have hylo2 : 0 ≤ s.byIdx y := hylo
  have hcellN : getCellN s.buckets (s.bxIdx x).toNat (s.byIdx y).toNat = some cell := by
    rw [← getCell_nonneg _ hxlo2 hylo2]
    exact hcell
  rw [insertAt_spec hb hcell]
  refine ⟨rfl, ?_⟩
  set s2 : SpatialGrid2D T :=
    { s with
      buckets := setCellN s.buckets (s.bxIdx x).toNat (s.byIdx y).toNat (cell ++ [⟨x, y, v⟩])
      size := s.size + 1 } with hs2
  have hb2 : s2.InBounds x y := hb
  have hcell2 : getCell s2.buckets (s2.bxIdx x) (s2.byIdx y) = some (cell ++ [⟨x, y, v⟩]) := by
    show getCell (setCellN s.buckets (s.bxIdx x).toNat (s.byIdx y).toNat (cell ++ [⟨x, y, v⟩]))
      (s.bxIdx x) (s.byIdx y) = _
    rw [getCell_nonneg _ hxlo2 hylo2]
    exact getCellN_setCellN_same hcellN _
  rw [get_spec hb2 hcell2]
  refine ⟨_, rfl, ?_⟩
  simp [coordPred, List.filter_append]

end SpatialGrid2D

/-- C8: for every in-bounds coordinate `(x, y)` and value `v`, `insertAt`
succeeds and a subsequent `get(x, y)` returns a collection containing `v`
itself, regardless of the other contents of the coordinate or bucket. -/
theorem insertAt_then_get_contains {T : Type} [DecidableEq T] (s : SpatialGrid2D T)
    (x y : ℚ) (v : T) (hrect : s.Rectangular) (hpos : s.PosDims)
    (hb : s.InBounds x y) :
    (s.insertAt x y v).1 = .ok () ∧
      ∃ l, ((s.insertAt x y v).2).get x y = .ok l ∧ v ∈ l :=
  SpatialGrid2D.insertAt_get_mem v hrect hpos hb

/-- Witness for C8 on the concrete 9×7 grid. -/
theorem insertAt_then_get_contains_witness :
    (gridW.insertAt 1 2 5).1 = .ok () ∧
      ∃ l, ((gridW.insertAt 1 2 5).2).get 1 2 = .ok l ∧ 5 ∈ l :=
  insertAt_then_get_contains gridW 1 2 5 (by decide) (by decide) (by decide)

/-- C10: the spatial grid never checks that coordinates are integers — for
every non-integer in-bounds coordinate, `insertAt` succeeds and `get` with
exactly the same fractional coordinate returns a collection containing the
value. -/
theorem fractional_coordinates_accepted {T : Type} [DecidableEq T] (s : SpatialGrid2D T)
    (x y : ℚ) (v : T) (hrect : s.Rectangular) (hpos : s.PosDims)
    (hb : s.InBounds x y) (hfrac : x.den ≠ 1 ∨ y.den ≠ 1) :
    (s.insertAt x y v).1 = .ok () ∧
      ∃ l, ((s.insertAt x y v).2).get x y = .ok l ∧ v ∈ l :=
  SpatialGrid2D.insertAt_get_mem v hrect hpos hb

/-- Witness for C10 at the fractional coordinate `(1/2, 7/2)`. -/
theorem fractional_coordinates_accepted_witness :
    (gridW.insertAt (mkRat 1 2) (mkRat 7 2) 5).1 = .ok () ∧
      ∃ l, ((gridW.insertAt (mkRat 1 2) (mkRat 7 2) 5).2).get (mkRat 1 2) (mkRat 7 2) = .ok l ∧
        5 ∈ l :=
  fractional_coordinates_accepted gridW (mkRat 1 2) (mkRat 7 2) 5
    (by decide) (by decide) (by decide) (by decide)

/-- C9: `forEach` passes the record's stored element coordinates to its
callback, while `getFiltered` and `getFirst` pass the bucket-array indices
of the bucket being scanned; on `gridMismatch` (bucket width `2 > 1`) the
two coordinate pairs differ for the same element: `forEach` reports
`(1, 0)`, the filter callbacks receive `(0, 0)`, so a predicate looking for
bucket-index `1` misses the element stored at element-coordinate `x = 1`. -/
theorem traversal_callback_coordinate_mismatch :
    gridMismatch.bucketWidth = 2 ∧
    SpatialGrid2D.forEachCalls gridMismatch = [(7, 1, 0)] ∧
    SpatialGrid2D.getFilteredCalls gridMismatch = [(7, 0, 0)] ∧
    gridMismatch.getFirst (fun _ i _ => decide (i = 1)) = none ∧
    gridMismatch.getFiltered (fun _ i _ => decide (i = 0)) = [7] ∧
    ((1 : ℚ), (0 : ℚ)) ≠ (((0 : ℕ) : ℚ), ((0 : ℕ) : ℚ)) := by
  refine ⟨rfl, by decide, by decide, by decide, by decide, by decide⟩

/-- C3 (code bug): the first two checked-pool guards behave as documented —
hydrating with a factory that returns an already-tracked instance fails with
`DuplicateRecordError`, and releasing an object never acquired (whether
foreign or merely hydrated-but-unacquired) fails with `InvalidReleaseError`
— but the double-release guard does not: releasing the same acquired object
twice is ACCEPTED (`release` never sets the `_isAvailableMap` entry back to
`true`), leaving the pool with the one real object parked in two free
slots. -/
theorem slowPool_double_release_not_rejected :
    (slowPoolConst.map fun _ => ()) = .error .duplicateRecordError ∧
    ((slowPoolSeq.bind fun s => s.release 99).map fun _ => ()) = .error .invalidReleaseError ∧
    ((slowPoolSeq.bind fun s => s.release 0).map fun _ => ()) = .error .invalidReleaseError ∧
    (slowPoolDoubleRelease.map fun s =>
      (s.availableObjects, s.totalObjects, s.isAvailableMap)) = .ok (2, 2, [(0, false)]) := by
  refine ⟨by decide, by decide, by decide, by decide⟩

/-! ### Pool hydration-count lemmas (C7) -/

theorem mem_jsSet {α : Type} {l : List (Option α)} {i : ℕ} {v : α} {o : Option α}
    (h : o ∈ jsSet l i v) : o ∈ l ∨ o = some v ∨ o = none := by
  rw [jsSet] at h
  split at h
  · rcases List.mem_or_eq_of_mem_set h with h | h
    · exact .inl h
    · exact .inr (.inl h)
  · rcases List.mem_append.mp h with h | h
    · rcases List.mem_append.mp h with h | h
      · exact .inl h
      · exact .inr (.inr (List.eq_of_mem_replicate h))
    · exact .inr (.inl (List.mem_singleton.mp h))

namespace FastPool

variable {T : Type}

theorem hydrateLoop_counts (f : ℕ → T) (n : ℕ) (pool : List (Option T)) (idx hyd : ℕ) :
    (hydrateLoop f n pool idx hyd).2.1 = idx + n ∧
    (hydrateLoop f n pool idx hyd).2.2 = hyd + n := by
  induction n generalizing pool idx hyd with
  | zero => simp [hydrateLoop]
  | succ m ih =>
    rw [hydrateLoop]
    have := ih (jsSet pool idx (f hyd)) (idx + 1) (hyd + 1)
    omega

theorem hydrate_fields (p : FastPool T) (n : ℕ) :
    (p.hydrate n).indexInPool = p.indexInPool + n ∧
    (p.hydrate n).hydrations = p.hydrations + n ∧
    (p.hydrate n).autoHydrateSize = p.autoHydrateSize ∧
    (p.hydrate n).onHydrate = p.onHydrate := by
  have := hydrateLoop_counts p.onHydrate n (p.pool ++ List.replicate n none)
    p.indexInPool p.hydrations
  exact ⟨this.1, this.2, rfl, rfl⟩

theorem getOne_of_pos (p : FastPool T) (h : p.indexInPool ≠ 0) :
    (p.getOne).2 = { p with indexInPool := p.indexInPool - 1 } := by
  rw [getOne]
  simp [h]

theorem getOnes_of_le (p : FastPool T) (k : ℕ) (h : k ≤ p.indexInPool) :
    p.getOnes k = { p with indexInPool := p.indexInPool - k } := by
  induction k generalizing p with
  | zero => simp [getOnes]
  | succ m ih =>
    rw [getOnes, getOne_of_pos p (by omega)]
    rw [ih { p with indexInPool := p.indexInPool - 1 } (by simpa using by omega)]
    have : p.indexInPool - 1 - m = p.indexInPool - (m + 1) := by omega
    simp [this]

theorem getOnes_add (p : FastPool T) (a b : ℕ) :
    p.getOnes (a + b) = (p.getOnes a).getOnes b := by
  induction a generalizing p with
  | zero => simp [getOnes]
  | succ m ih =>
    have h1 : m + 1 + b = (m + b) + 1 := by omega
    rw [h1, getOnes, getOnes, ih]

theorem getOne_hydrations_of_zero (p : FastPool T) (h : p.indexInPool = 0) :
    ((p.getOne).2).hydrations = p.hydrations + p.autoHydrateSize := by
  rw [getOne]
  simp only [h, if_pos rfl]
  exact (hydrate_fields p p.autoHydrateSize).2.1

theorem mkPool_fields (f : ℕ → T) (n k : ℕ) :
    (mkPool f n k).indexInPool = n ∧ (mkPool f n k).hydrations = n ∧
    (mkPool f n k).autoHydrateSize = k := by
  rw [mkPool]
  have := hydrate_fields
    (T := T) { pool := [], indexInPool := 0, initialSize := n
               autoHydrateSize := k, onHydrate := f, hydrations := 0, releaseLog := [] } n
  refine ⟨by rw [this.1]; simp, by rw [this.2.1]; simp, this.2.2.1⟩

end FastPool

theorem mapHas_mapSet_imp {T : Type} [DecidableEq T] {m : List (T × Bool)} {k t : T}
    {b : Bool} (h : mapHas (mapSet m k b) t = true) : mapHas m t = true ∨ t = k := by
  rw [mapSet] at h
  split at h
  · rw [mapHas, List.any_map] at h
    rcases List.any_eq_true.mp h with ⟨e, hem, he⟩
    simp only [Function.comp] at he
    by_cases hek : e.1 = k
    · right
      simp [hek] at he
      exact he.symm
    · left
      simp [hek] at he
      exact List.any_eq_true.mpr ⟨e, hem, by simp [he]⟩
  · rw [mapHas, List.any_append] at h
    rcases Bool.or_eq_true_iff.mp h with h | h
    · exact .inl h
    · rcases List.any_eq_true.mp h with ⟨e, hem, he⟩
      rcases List.mem_singleton.mp hem with rfl
      right
      simp at he
      exact he.symm

namespace SlowPool

variable {T : Type} [DecidableEq T]

/-- Appending `undefined` padding to the pool preserves freshness. -/
theorem fresh_append_none {s : SlowPool T} (h : s.Fresh) (n : ℕ) :
    Fresh { s with pool := s.pool ++ List.replicate n none } := by
  refine ⟨h.1, fun o ho => ?_⟩
  rcases List.mem_append.mp ho with ho | ho
  · exact h.2 o ho
  · exact absurd (List.eq_of_mem_replicate ho) (by simp)

theorem hydrateLoop_ok {s : SlowPool T} (hinj : Function.Injective s.onHydrate)
    (hfresh : s.Fresh) (n : ℕ) :
    ∃ s2, hydrateLoop n s = .ok s2 ∧ s2.indexInPool = s.indexInPool + n ∧
      s2.hydrations = s.hydrations + n ∧ s2.autoHydrateSize = s.autoHydrateSize ∧
      s2.onHydrate = s.onHydrate ∧ s2.Fresh := by
  induction n generalizing s with
  | zero => exact ⟨s, rfl, by omega, by omega, rfl, rfl, hfresh⟩
  | succ m ih =>
    rw [hydrateLoop]
    have hdup : mapHas s.isAvailableMap (s.onHydrate s.hydrations) = false := by
      by_contra hcon
      rcases hfresh.1 _ (by simpa using hcon) with ⟨i, hilt, hieq⟩
      exact absurd (hinj hieq) (by omega)
    simp only [hdup, Bool.false_eq_true, if_false]
    set s3 : SlowPool T :=
      { s with
        hydrations := s.hydrations + 1
        isAvailableMap := mapSet s.isAvailableMap (s.onHydrate s.hydrations) true
        pool := jsSet s.pool s.indexInPool (s.onHydrate s.hydrations)
        indexInPool := s.indexInPool + 1 } with hs3
    have hs3hyd : s3.hydrations = s.hydrations + 1 := rfl
    have hs3on : s3.onHydrate = s.onHydrate := rfl
    have hfresh3 : s3.Fresh := by
      constructor
      · intro t ht
        rcases mapHas_mapSet_imp ht with ht | ht
        · rcases hfresh.1 t ht with ⟨i, hilt, hieq⟩
          exact ⟨i, by omega, by rw [hs3on]; exact hieq⟩
        · exact ⟨s.hydrations, by omega, by rw [hs3on, ht]⟩
      · intro o ho
        rcases mem_jsSet ho with ho | ho | ho
        · rcases hfresh.2 o ho with ⟨i, hilt, hieq⟩
          exact ⟨i, by omega, by rw [hs3on]; exact hieq⟩
        · exact ⟨s.hydrations, by omega, by rw [hs3on]; exact (Option.some_inj.mp ho).symm⟩
        · exact absurd ho (by simp)
    rcases ih (s := s3) hinj hfresh3 with ⟨s2, hrun, h1, h2, h3, h4, h5⟩
    exact ⟨s2, hrun, by simp [hs3] at h1 ⊢; omega, by simp [hs3] at h2 ⊢; omega,
      h3, h4, h5⟩

theorem hydrate_ok {s : SlowPool T} (hinj : Function.Injective s.onHydrate)
    (hfresh : s.Fresh) (n : ℕ) :
    ∃ s2, s.hydrate n = .ok s2 ∧ s2.indexInPool = s.indexInPool + n ∧
      s2.hydrations = s.hydrations + n ∧ s2.autoHydrateSize = s.autoHydrateSize ∧
      s2.onHydrate = s.onHydrate ∧ s2.Fresh := by
  rw [hydrate]
  exact hydrateLoop_ok (s := { s with pool := s.pool ++ List.replicate n none })
    hinj (fresh_append_none hfresh n) n

theorem mkPool_ok (f : ℕ → T) (hinj : Function.Injective f) (n k : ℕ) :
    ∃ s0, mkPool f n k = .ok s0 ∧ s0.indexInPool = n ∧ s0.hydrations = n ∧
      s0.autoHydrateSize = k ∧ s0.onHydrate = f ∧ s0.Fresh := by
  rw [mkPool]
  have hfresh : Fresh (T := T)
      { pool := [], indexInPool := 0, isAvailableMap := []
        initialSize := n, autoHydrateSize := k
        onHydrate := f, hydrations := 0, releaseLog := [] } := by
    constructor
    · intro t ht
      exact absurd ht (by rw [mapHas]; simp)
    · intro o ho
      exact absurd ho (by simp)
  rcases hydrate_ok (s :=
      { pool := [], indexInPool := 0, isAvailableMap := []
        initialSize := n, autoHydrateSize := k
        onHydrate := f, hydrations := 0, releaseLog := [] }) hinj hfresh n
    with ⟨s0, hrun, h1, h2, h3, h4, h5⟩
  exact ⟨s0, hrun, by simpa using h1, by simpa using h2, h3, h4, h5⟩

theorem slowGetOne_of_pos {s : SlowPool T} (h : s.indexInPool ≠ 0) :
    ∃ r, s.getOne = .ok r ∧ r.2.indexInPool = s.indexInPool - 1 ∧
      r.2.hydrations = s.hydrations ∧ r.2.autoHydrateSize = s.autoHydrateSize ∧
      r.2.onHydrate = s.onHydrate ∧ (s.Fresh → r.2.Fresh) := by
  cases hpop : s.pool.getD (s.indexInPool - 1) none with
  | none =>
    have heval : s.getOne = .ok (none, { s with indexInPool := s.indexInPool - 1 }) := by
      rw [getOne, if_neg h]
      simp only [Except.map]
      rw [hpop]
    exact ⟨_, heval, rfl, rfl, rfl, rfl, fun hf => ⟨hf.1, hf.2⟩⟩
  | some o =>
    have heval : s.getOne = .ok (some o,
        { s with indexInPool := s.indexInPool - 1
                 isAvailableMap := mapSet s.isAvailableMap o false }) := by
      rw [getOne, if_neg h]
      simp only [Except.map]
      rw [hpop]
    refine ⟨_, heval, rfl, rfl, rfl, rfl, fun hf => ⟨?_, hf.2⟩⟩
    intro t ht
    rcases mapHas_mapSet_imp ht with ht | ht
    · exact hf.1 t ht
    · subst ht
      refine hf.2 t ?_
      rw [List.getD_eq_getElem?_getD] at hpop
      cases hg : s.pool[s.indexInPool - 1]? with
      | none => rw [hg] at hpop; exact absurd hpop (by simp)
      | some w =>
        rw [hg] at hpop
        simp only [Option.getD_some] at hpop
        subst hpop
        rcases List.getElem?_eq_some_iff.mp hg with ⟨hlt, hw⟩
        exact hw ▸ List.getElem_mem hlt

theorem slowGetOnes_of_le (s : SlowPool T) (k : ℕ) (h : k ≤ s.indexInPool) :
    ∃ s1, s.getOnes k = .ok s1 ∧ s1.indexInPool = s.indexInPool - k ∧
      s1.hydrations = s.hydrations ∧ s1.autoHydrateSize = s.autoHydrateSize ∧
      s1.onHydrate = s.onHydrate ∧ (s.Fresh → s1.Fresh) := by
  induction k generalizing s with
  | zero => exact ⟨s, rfl, by omega, rfl, rfl, rfl, fun hf => hf⟩
  | succ m ih =>
    rw [getOnes]
    rcases slowGetOne_of_pos (s := s) (by omega) with ⟨r, hrun, h1, h2, h3, h4, h5⟩
    rw [hrun]
    rcases ih r.2 (by omega) with ⟨s1, hrun1, g1, g2, g3, g4, g5⟩
    exact ⟨s1, hrun1, by omega, by rw [g2, h2], by rw [g3, h3], by rw [g4, h4],
      fun hf => g5 (h5 hf)⟩

theorem slowGetOnes_add (s : SlowPool T) (a b : ℕ) :
    s.getOnes (a + b) = (s.getOnes a).bind fun s1 => s1.getOnes b := by
  induction a generalizing s with
  | zero =>
    rw [Nat.zero_add]
    rfl
  | succ m ih =>
    have h1 : m + 1 + b = (m + b) + 1 := by omega
    rw [h1, getOnes, getOnes]
    cases hg : s.getOne with
    | error e => rfl
    | ok r => exact ih r.2

theorem getOne_of_zero {s : SlowPool T} (h : s.indexInPool = 0)
    (hinj : Function.Injective s.onHydrate) (hfresh : s.Fresh) :
    ∃ r, s.getOne = .ok r ∧ r.2.hydrations = s.hydrations + s.autoHydrateSize := by
  rw [getOne, if_pos h]
  rcases hydrate_ok hinj hfresh s.autoHydrateSize with ⟨s2, hrun, h1, h2, h3, h4, h5⟩
  rw [hrun]
  simp only [Except.map]
  cases hpop : s2.pool.getD (s2.indexInPool - 1) none with
  | none => exact ⟨_, rfl, h2⟩
  | some o => exact ⟨_, rfl, h2⟩

end SlowPool

/-- C7: for both pool variants constructed with `initialSize n` and
`autoHydrateSize k` (with a factory producing distinct instances, as the
pool contract demands): the construction itself invokes the factory `n`
times, the first `n` `getOne` calls invoke it zero further times and leave
the pool exhausted, and the `(n+1)`-th `getOne` call invokes it exactly `k`
more times. -/
theorem pool_hydration_counts {T : Type} [DecidableEq T] (f : ℕ → T) (n k : ℕ)
    (hinj : Function.Injective f) :
    ((FastPool.mkPool f n k).hydrations = n ∧
     ((FastPool.mkPool f n k).getOnes n).hydrations = n ∧
     ((FastPool.mkPool f n k).getOnes n).indexInPool = 0 ∧
     ((FastPool.mkPool f n k).getOnes (n + 1)).hydrations = n + k) ∧
    (∃ s0 s1 s2, SlowPool.mkPool f n k = .ok s0 ∧ s0.hydrations = n ∧
      s0.getOnes n = .ok s1 ∧ s1.hydrations = n ∧ s1.indexInPool = 0 ∧
      s0.getOnes (n + 1) = .ok s2 ∧ s2.hydrations = n + k) := by
  obtain ⟨hidx, hhyd, hauto⟩ := FastPool.mkPool_fields f n k
  have h1 : (FastPool.mkPool f n k).getOnes n =
      { FastPool.mkPool f n k with indexInPool := 0 } := by
    rw [FastPool.getOnes_of_le _ n (by omega), hidx]
    simp
  constructor
  · refine ⟨hhyd, ?_, ?_, ?_⟩
    · rw [h1]
      exact hhyd
    · rw [h1]
    · rw [FastPool.getOnes_add _ n 1, h1, FastPool.getOnes, FastPool.getOnes]
      have hz := FastPool.getOne_hydrations_of_zero
        { FastPool.mkPool f n k with indexInPool := 0 } rfl
      rw [hz]
      have hy : ({ FastPool.mkPool f n k with indexInPool := 0 } : FastPool T).hydrations
          = n := hhyd
      have ha : ({ FastPool.mkPool f n k with indexInPool := 0 } : FastPool T).autoHydrateSize
          = k := hauto
      omega
  · rcases SlowPool.mkPool_ok f hinj n k with ⟨s0, hmk, hidx0, hhyd0, hauto0, hon0, hfresh0⟩
    rcases SlowPool.slowGetOnes_of_le s0 n (by omega) with ⟨s1, hrun1, g1, g2, g3, g4, g5⟩
    have hfresh1 := g5 hfresh0
    have hinj1 : Function.Injective s1.onHydrate := by
      rw [g4, hon0]
      exact hinj
    rcases SlowPool.getOne_of_zero (s := s1) (by omega) hinj1 hfresh1 with ⟨r, hg1, hg2⟩
    refine ⟨s0, s1, r.2, hmk, hhyd0, hrun1, by rw [g2, hhyd0], by omega, ?_, ?_⟩
    · rw [SlowPool.slowGetOnes_add s0 n 1, hrun1]
      show s1.getOnes 1 = .ok r.2
      rw [SlowPool.getOnes, hg1]
      rfl
    · rw [hg2, g2, hhyd0, g3, hauto0]

/-! ### The swap-remove loop (C4, C2, C5) -/

theorem take_set_eq {α : Type} (l : List α) (i : ℕ) (b : α) :
    (l.set i b).take i = l.take i := by
  apply List.ext_getElem?
  intro n
  rw [List.getElem?_take, List.getElem?_take]
  by_cases hn : n < i
  · rw [if_pos hn, if_pos hn, List.getElem?_set_ne (by omega)]
  · rw [if_neg hn, if_neg hn]

namespace SpatialGrid2D

variable {T : Type} [DecidableEq T]

/-- One unfolding of the loop body when `i < len ≤ bucket.length`. -/
theorem removeLoopAux_step (p : Item T → Bool) (bucket : List (Item T)) (i len r m : ℕ)
    (hib : i < bucket.length) (hl1 : len - 1 < bucket.length) :
    removeLoopAux p (m + 1) bucket i len r =
      if p bucket[i] = true then
        removeLoopAux p m (bucket.set i bucket[len - 1]) i (len - 1) (r + 1)
      else removeLoopAux p m bucket (i + 1) len r := by
  rw [removeLoopAux, List.get?_eq_getElem?, List.getElem?_eq_getElem hib,
    List.get?_eq_getElem?, List.getElem?_eq_getElem hl1]

/-- The loop examines exactly the positions `i ≤ j < len`; with no match
there it leaves the bucket as `take len` and the counter untouched. -/
theorem removeLoopAux_no_match (p : Item T → Bool) (n : ℕ) :
    ∀ (bucket : List (Item T)) (i len r : ℕ), i ≤ len → len ≤ bucket.length →
      len - i = n → ((bucket.drop i).take (len - i)).countP p = 0 →
      removeLoopAux p n bucket i len r = (bucket.take len, r) := by
  induction n with
  | zero =>
    intro bucket i len r _ _ _ _
    rw [removeLoopAux]
  | succ m ih =>
    intro bucket i len r hi hlen hn hcount
    have hilt : i < len := by omega
    have hib : i < bucket.length := by omega
    have hl1 : len - 1 < bucket.length := by omega
    have hmid : (bucket.drop i).take (len - i) =
        bucket[i] :: (bucket.drop (i + 1)).take (len - i - 1) := by
      rw [List.drop_eq_getElem_cons hib]
      rw [show len - i = (len - i - 1) + 1 by omega, List.take_succ_cons]
      simp
    rw [hmid, List.countP_cons] at hcount
    have hp : p bucket[i] = false := by
      by_contra hcon
      rw [Bool.not_eq_false] at hcon
      rw [if_pos hcon] at hcount
      omega
    rw [removeLoopAux_step p bucket i len r m hib hl1, if_neg (by rw [hp]; simp)]
    exact ih bucket (i + 1) len r (by omega) hlen (by omega)
      (by rw [show len - (i + 1) = len - i - 1 by omega]; omega)

/-- The loop's full specification: the surviving bucket is, up to the
swap-reordering, the prefix below `i` plus the non-matching part of the
examined window, and the removal counter counts the matches there. -/
theorem removeLoopAux_spec (p : Item T → Bool) (n : ℕ) :
    ∀ (bucket : List (Item T)) (i len r : ℕ), i ≤ len → len ≤ bucket.length →
      len - i = n →
      ((removeLoopAux p n bucket i len r).1).Perm
        (bucket.take i ++ ((bucket.drop i).take (len - i)).filter (fun a => ! p a)) ∧
      (removeLoopAux p n bucket i len r).2 =
        r + ((bucket.drop i).take (len - i)).countP p := by
  induction n with
  | zero =>
    intro bucket i len r hi hlen hn
    have hil : i = len := by omega
    rw [removeLoopAux, hil, Nat.sub_self]
    constructor
    · simp
    · simp
  | succ m ih =>
    intro bucket i len r hi hlen hn
    have hilt : i < len := by omega
    have hib : i < bucket.length := by omega
    have hl1 : len - 1 < bucket.length := by omega
    have hmid : (bucket.drop i).take (len - i) =
        bucket[i] :: (bucket.drop (i + 1)).take (len - i - 1) := by
      rw [List.drop_eq_getElem_cons hib]
      rw [show len - i = (len - i - 1) + 1 by omega, List.take_succ_cons]
      simp
    rw [removeLoopAux_step p bucket i len r m hib hl1]
    by_cases hp : p bucket[i] = true
    · rw [if_pos hp]
      have hrec := ih (bucket.set i bucket[len - 1]) i (len - 1) (r + 1)
        (by omega) (by rw [List.length_set]; omega) (by omega)
      have hdropset : (bucket.set i bucket[len - 1]).drop i =
          bucket[len - 1] :: bucket.drop (i + 1) := by
        rw [List.drop_set, if_neg (by omega), Nat.sub_self,
          List.drop_eq_getElem_cons hib]
        rfl
      have hK : (bucket[i] ::
          (((bucket.set i bucket[len - 1]).drop i).take (len - 1 - i))).Perm
          ((bucket.drop i).take (len - i)) := by
        rw [hdropset, hmid]
        by_cases hlast : i = len - 1
        · rw [show len - 1 - i = 0 by omega, show len - i - 1 = 0 by omega]
          simp [hlast]
        · have hfull : (bucket.drop (i + 1)).take (len - i - 1) =
              (bucket.drop (i + 1)).take (len - i - 2) ++ [bucket[len - 1]] := by
            obtain ⟨w, hw1, hw2⟩ : ∃ w, len - i - 1 = w + 1 ∧ len - i - 2 = w :=
              ⟨len - i - 2, by omega, rfl⟩
            rw [hw1, hw2, List.take_succ]
            have hg : (bucket.drop (i + 1))[w]? = some bucket[len - 1] := by
              rw [List.getElem?_drop]
              rw [show i + 1 + w = len - 1 by omega]
              exact List.getElem?_eq_getElem hl1
            rw [hg]
            rfl
          rw [hfull, show len - 1 - i = (len - i - 2) + 1 by omega, List.take_succ_cons]
          exact ((List.perm_append_singleton _ _).symm.cons bucket[i])
      constructor
      · refine hrec.1.trans ?_
        rw [take_set_eq]
        refine List.Perm.append_left _ ?_
        have hfil := (List.Perm.filter (fun a => ! p a) hK).symm
        rw [List.filter_cons] at hfil
        rw [hp] at hfil
        simp only [Bool.not_true, Bool.false_eq_true, if_false] at hfil
        exact hfil.symm
      · rw [hrec.2]
        have hcnt := (List.Perm.countP_eq p hK).symm
        rw [List.countP_cons, hp, if_pos rfl] at hcnt
        omega
    · rw [if_neg hp]
      have hrec := ih bucket (i + 1) len r (by omega) hlen (by omega)
      have htk : bucket.take (i + 1) = bucket.take i ++ [bucket[i]] := by
        rw [List.take_succ, List.getElem?_eq_getElem hib]
        rfl
      have hm1 : len - (i + 1) = len - i - 1 := by omega
      have hpf : p bucket[i] = false := by
        simpa using hp
      constructor
      · have heq : bucket.take (i + 1) ++
            ((bucket.drop (i + 1)).take (len - (i + 1))).filter (fun a => ! p a) =
            bucket.take i ++ ((bucket.drop i).take (len - i)).filter (fun a => ! p a) := by
          rw [htk, hm1, hmid, List.filter_cons, hpf]
          simp only [Bool.not_false, if_true]
          rw [List.append_assoc, List.singleton_append]
        exact hrec.1.trans (heq ▸ List.Perm.refl _)
      · rw [hrec.2, hm1, hmid, List.countP_cons, hpf]
        simp

end SpatialGrid2D

theorem set_self_of_getElem? {α : Type} {l : List α} {n : ℕ} {a : α}
    (h : l[n]? = some a) : l.set n a = l := by
  have hn : n < l.length := (List.getElem?_eq_some_iff.mp h).1
  apply List.ext_getElem?
  intro j
  by_cases hj : n = j
  · subst hj
    rw [List.getElem?_set_self hn, h]
  · rw [List.getElem?_set_ne hj]

theorem setCellN_self {T : Type} {b : Buckets T} {ix iy : ℕ} {cell : List (Item T)}
    (h : getCellN b ix iy = some cell) : setCellN b ix iy cell = b := by
  rw [getCellN, List.get?_eq_getElem?] at h
  cases hrow : b[ix]? with
  | none => rw [hrow] at h; exact absurd h (by simp)
  | some row =>
    rw [hrow] at h
    simp only [Option.some_bind] at h
    rw [List.get?_eq_getElem?] at h
    have hset : setCellN b ix iy cell = b.set ix (row.set iy cell) := by
      rw [setCellN, List.get?_eq_getElem?, hrow]
    rw [hset, set_self_of_getElem? h]
    exact set_self_of_getElem? hrow

theorem getCell_eq_some_parts {T : Type} {b : Buckets T} {ix iy : ℤ}
    {cell : List (Item T)} (h : getCell b ix iy = some cell) :
    0 ≤ ix ∧ 0 ≤ iy ∧ getCellN b ix.toNat iy.toNat = some cell := by
  rw [getCell] at h
  by_cases hc : 0 ≤ ix ∧ 0 ≤ iy
  · rw [if_pos hc] at h
    exact ⟨hc.1, hc.2, h⟩
  · rw [if_neg hc] at h
    exact absurd h (by simp)

namespace SpatialGrid2D

variable {T : Type} [DecidableEq T]

/-- The loop over the whole bucket: the result is the non-matching records
(up to swap-reordering), and the counter is the number of matches. -/
theorem removeLoop_spec (p : Item T → Bool) (cell : List (Item T)) :
    ((removeLoop p cell 0 cell.length 0).1).Perm (cell.filter (fun a => ! p a)) ∧
    (removeLoop p cell 0 cell.length 0).2 = cell.countP p := by
  have h := removeLoopAux_spec p (cell.length - 0) cell 0 cell.length 0
    (by omega) (le_refl _) rfl
  rw [removeLoop]
  simpa using h

theorem removeLoop_no_match (p : Item T → Bool) (cell : List (Item T))
    (h : cell.countP p = 0) :
    removeLoop p cell 0 cell.length 0 = (cell, 0) := by
  rw [removeLoop]
  have := removeLoopAux_no_match p (cell.length - 0) cell 0 cell.length 0
    (by omega) (le_refl _) rfl (by simpa using h)
  simpa [List.take_length] using this

/-- `removeAt` on an in-bounds coordinate, written through the loop. -/
theorem removeAt_eq {s : SpatialGrid2D T} {x y : ℚ} {v : T} {cell : List (Item T)}
    (hb : s.InBounds x y)
    (hcell : getCell s.buckets (s.bxIdx x) (s.byIdx y) = some cell) :
    s.removeAt x y v =
      if (removeLoop (matchPred x y v) cell 0 cell.length 0).2 = 0
      then (.error .notFoundError,
        { s with
          buckets := setCellN s.buckets (s.bxIdx x).toNat (s.byIdx y).toNat
            (removeLoop (matchPred x y v) cell 0 cell.length 0).1
          size := s.size -
            ((removeLoop (matchPred x y v) cell 0 cell.length 0).2 : ℤ) })
      else (.ok (),
        { s with
          buckets := setCellN s.buckets (s.bxIdx x).toNat (s.byIdx y).toNat
            (removeLoop (matchPred x y v) cell 0 cell.length 0).1
          size := s.size -
            ((removeLoop (matchPred x y v) cell 0 cell.length 0).2 : ℤ) }) := by
  rw [removeAt, if_neg (by rw [outOfBounds_eq_false.mpr hb]; simp), hcell]
  simp only []
  rw [modifyCell_isSome (fun _ => (removeLoop (matchPred x y v) cell 0 cell.length 0).1) hcell]

/-- `removeAllAt` on an in-bounds coordinate, written through the loop. -/
theorem removeAllAt_eq {s : SpatialGrid2D T} {x y : ℚ} {cell : List (Item T)}
    (hb : s.InBounds x y)
    (hcell : getCell s.buckets (s.bxIdx x) (s.byIdx y) = some cell) :
    s.removeAllAt x y =
      (.ok (),
       { s with
         buckets := setCellN s.buckets (s.bxIdx x).toNat (s.byIdx y).toNat
           (removeLoop (coordPred x y) cell 0 cell.length 0).1
         size := s.size -
           ((removeLoop (coordPred x y) cell 0 cell.length 0).2 : ℤ) }) := by
  rw [removeAllAt, if_neg (by rw [outOfBounds_eq_false.mpr hb]; simp), hcell]
  simp only []
  rw [modifyCell_isSome (fun _ => (removeLoop (coordPred x y) cell 0 cell.length 0).1) hcell]

/-- A no-match `removeAt` throws `NotFoundError` and leaves the state
EXACTLY unchanged (its loop never mutated the bucket). -/
theorem removeAt_no_match {s : SpatialGrid2D T} {x y : ℚ} {v : T} {cell : List (Item T)}
    (hb : s.InBounds x y)
    (hcell : getCell s.buckets (s.bxIdx x) (s.byIdx y) = some cell)
    (hno : cell.countP (matchPred x y v) = 0) :
    s.removeAt x y v = (.error .notFoundError, s) := by
  rw [removeAt_eq hb hcell, removeLoop_no_match _ _ hno]
  have hN := (getCell_eq_some_parts hcell).2.2
  simp [setCellN_self hN]

theorem matchPred_true_iff {x y : ℚ} {v : T} {it : Item T} :
    matchPred x y v it = true ↔ it.x = x ∧ it.y = y ∧ it.value = v := by
  rw [matchPred]
  simp [and_assoc]

theorem coordPred_true_iff {x y : ℚ} {it : Item T} :
    coordPred x y it = true ↔ it.x = x ∧ it.y = y := by
  rw [coordPred]
  simp

/-- An erroring `insertAt` leaves the state exactly unchanged. -/
theorem insertAt_error_state (s : SpatialGrid2D T) (x y : ℚ) (v : T) (e : GridError)
    (h : (s.insertAt x y v).1 = .error e) : (s.insertAt x y v).2 = s := by
  rw [insertAt] at h ⊢
  by_cases hob : s.outOfBounds x y = true
  · rw [if_pos hob]
  · rw [if_neg hob] at h ⊢
    cases hm : modifyCell s.buckets (s.bxIdx x) (s.byIdx y)
        (fun cell => cell ++ [⟨x, y, v⟩]) with
    | none => rfl
    | some b2 =>
      rw [hm] at h
      exact Except.noConfusion h

/-- An erroring `removeAt` leaves the state exactly unchanged (on the
`NotFoundError` path the loop found no match, so it never mutated). -/
theorem removeAt_error_state (s : SpatialGrid2D T) (x y : ℚ) (v : T) (e : GridError)
    (h : (s.removeAt x y v).1 = .error e) : (s.removeAt x y v).2 = s := by
  by_cases hob : s.outOfBounds x y = true
  · rw [removeAt, if_pos hob]
  · have hb : s.InBounds x y := outOfBounds_eq_false.mp (by simpa using hob)
    cases hcell : getCell s.buckets (s.bxIdx x) (s.byIdx y) with
    | none => rw [removeAt, if_neg hob, hcell]
    | some cell =>
      by_cases h0 : cell.countP (matchPred x y v) = 0
      · rw [removeAt_no_match hb hcell h0]
      · rw [removeAt_eq hb hcell] at h ⊢
        rw [if_neg (by rw [(removeLoop_spec (matchPred x y v) cell).2]; exact h0)] at h
        exact absurd h (by simp)

/-- An erroring `removeAllAt` leaves the state exactly unchanged. -/
theorem removeAllAt_error_state (s : SpatialGrid2D T) (x y : ℚ) (e : GridError)
    (h : (s.removeAllAt x y).1 = .error e) : (s.removeAllAt x y).2 = s := by
  by_cases hob : s.outOfBounds x y = true
  · rw [removeAllAt, if_pos hob]
  · have hb : s.InBounds x y := outOfBounds_eq_false.mp (by simpa using hob)
    cases hcell : getCell s.buckets (s.bxIdx x) (s.byIdx y) with
    | none => rw [removeAllAt, if_neg hob, hcell]
    | some cell =>
      rw [removeAllAt_eq hb hcell] at h
      exact absurd h (by simp)

/-- When the source removal of `move` errors, `move` reports that error and
leaves the state exactly unchanged. -/
theorem move_source_error_state (s : SpatialGrid2D T) (a b c d : ℚ) (v : T)
    (e : GridError) (h : (s.removeAt a b v).1 = .error e) :
    s.move a b c d v = (.error e, s) := by
  have hst := removeAt_error_state s a b v e h
  rw [move]
  cases hr : s.removeAt a b v with
  | mk r s1 =>
    rw [hr] at h hst
    simp only [] at h hst
    cases r with
    | error e2 =>
      cases h
      rw [hst]
    | ok u => exact absurd h (by simp)

end SpatialGrid2D

/-- C2 counterexample: on `gridC2` (value `7` stored at `(0, 0)` of a 2×1
grid), `move(0, 0, 5, 0, 7)` throws a `BoundsError` — raised by the
destination `insertAt` after the source `removeAt` already succeeded — and
the observable state is NOT what it was before the call: the record is gone
and `size` dropped to `0`. -/
theorem move_dest_bounds_error_mutates_state :
    (gridC2.move 0 0 5 0 7).1 = .error .boundsError ∧
    (gridC2.move 0 0 5 0 7).2 ≠ gridC2 ∧
    (gridC2.move 0 0 5 0 7).2.size = 0 ∧
    (gridC2.move 0 0 5 0 7).2.get 0 0 = .ok [] := by
  refine ⟨by decide, by decide, by decide, by decide⟩

/-- C2 amended: a `BoundsError` or `NotFoundError` from `insertAt`,
`removeAt` or `removeAllAt` leaves the index's observable state exactly as
it was before the call, and so does a `move` whose error arises at the
SOURCE removal.  (As amended, nothing is claimed for a `move` whose
destination insert fails after a successful removal: the source records
stay removed — see the counterexample.) -/
theorem grid_errors_leave_state_unchanged {T : Type} [DecidableEq T]
    (s : SpatialGrid2D T) (x y a b c d : ℚ) (v w : T) :
    (∀ e, (s.insertAt x y v).1 = .error e → (s.insertAt x y v).2 = s) ∧
    (∀ e, (s.removeAt x y v).1 = .error e → (s.removeAt x y v).2 = s) ∧
    (∀ e, (s.removeAllAt x y).1 = .error e → (s.removeAllAt x y).2 = s) ∧
    (∀ e, (s.removeAt a b w).1 = .error e → s.move a b c d w = (.error e, s)) :=
  ⟨fun e h => SpatialGrid2D.insertAt_error_state s x y v e h,
   fun e h => SpatialGrid2D.removeAt_error_state s x y v e h,
   fun e h => SpatialGrid2D.removeAllAt_error_state s x y e h,
   fun e h => SpatialGrid2D.move_source_error_state s a b c d w e h⟩

/-- Witness for C2 (amended) on `gridC4`: an out-of-bounds insert, a
not-found remove, and a move with a not-found source all leave the state
unchanged. -/
theorem grid_errors_leave_state_unchanged_witness :
    (gridC4.insertAt (-1) 0 9).2 = gridC4 ∧
    (gridC4.removeAt 1 1 9).2 = gridC4 ∧
    gridC4.move 1 1 2 2 9 = (.error .notFoundError, gridC4) := by
  have h1 := grid_errors_leave_state_unchanged gridC4 (-1) 0 1 1 2 2 9 9
  have h2 := grid_errors_leave_state_unchanged gridC4 1 1 1 1 2 2 9 9
  exact ⟨h1.1 .boundsError (by decide), h2.2.1 .notFoundError (by decide),
    h2.2.2.2 .notFoundError (by decide)⟩

/-- C4: for an in-bounds coordinate whose owning bucket is `cell`:
`removeAt(x, y, v)` throws `NotFoundError` (leaving the state unchanged)
when no record of the bucket matches both the coordinate and the value by
reference; otherwise it succeeds, removes every matching record of the
bucket in the one call (the survivors are exactly the non-matching records,
up to the swap-remove reordering), decrements `size` once per removed
record, and a subsequent `get(x, y)` never returns `v`. -/
theorem removeAt_claim {T : Type} [DecidableEq T] (s : SpatialGrid2D T) (x y : ℚ)
    (v : T) (cell : List (Item T)) (hb : s.InBounds x y)
    (hcell : getCell s.buckets (s.bxIdx x) (s.byIdx y) = some cell) :
    ((∀ it ∈ cell, SpatialGrid2D.matchPred x y v it = false) →
      s.removeAt x y v = (.error .notFoundError, s)) ∧
    ((∃ it ∈ cell, SpatialGrid2D.matchPred x y v it = true) →
      (s.removeAt x y v).1 = .ok () ∧
      (s.removeAt x y v).2.size =
        s.size - ((cell.countP (SpatialGrid2D.matchPred x y v)) : ℤ) ∧
      1 ≤ cell.countP (SpatialGrid2D.matchPred x y v) ∧
      (∃ cell2,
        getCell (s.removeAt x y v).2.buckets (s.bxIdx x) (s.byIdx y) = some cell2 ∧
        cell2.Perm (cell.filter (fun it => ! SpatialGrid2D.matchPred x y v it))) ∧
      ∃ l, (s.removeAt x y v).2.get x y = .ok l ∧ v ∉ l) := by
  obtain ⟨hxlo, hylo, hN⟩ := getCell_eq_some_parts hcell
  constructor
  · intro hall
    refine SpatialGrid2D.removeAt_no_match hb hcell ?_
    rw [List.countP_eq_zero]
    intro a ha
    rw [hall a ha]
    simp
  · intro hex
    have hpos : 0 < cell.countP (SpatialGrid2D.matchPred x y v) :=
      List.countP_pos.mpr (by simpa using hex)
    have hspec := SpatialGrid2D.removeLoop_spec (SpatialGrid2D.matchPred x y v) cell
    rw [SpatialGrid2D.removeAt_eq hb hcell, if_neg (by rw [hspec.2]; omega)]
    set cell2 := (SpatialGrid2D.removeLoop (SpatialGrid2D.matchPred x y v)
      cell 0 cell.length 0).1 with hcell2def
    set s2 : SpatialGrid2D T :=
      { s with
        buckets := setCellN s.buckets (s.bxIdx x).toNat (s.byIdx y).toNat cell2
        size := s.size - ((SpatialGrid2D.removeLoop (SpatialGrid2D.matchPred x y v)
          cell 0 cell.length 0).2 : ℤ) } with hs2
    have hget2 : getCell s2.buckets (s2.bxIdx x) (s2.byIdx y) = some cell2 := by
      show getCell (setCellN s.buckets (s.bxIdx x).toNat (s.byIdx y).toNat cell2)
        (s.bxIdx x) (s.byIdx y) = some cell2
      rw [getCell_nonneg _ hxlo hylo]
      exact getCellN_setCellN_same hN _
    refine ⟨rfl, ?_, by omega, ⟨cell2, hget2, hspec.1⟩, ?_⟩
    · show s.size - ((SpatialGrid2D.removeLoop (SpatialGrid2D.matchPred x y v)
        cell 0 cell.length 0).2 : ℤ) =
        s.size - ((cell.countP (SpatialGrid2D.matchPred x y v)) : ℤ)
      rw [hspec.2]
    have hb2 : s2.InBounds x y := hb
    rw [SpatialGrid2D.get_spec hb2 hget2]
    refine ⟨_, rfl, ?_⟩
    intro hvmem
    rcases List.mem_map.mp hvmem with ⟨it, hitmem, hitval⟩
    rcases List.mem_filter.mp hitmem with ⟨hitcell, hitcoord⟩
    have hitfil := (hspec.1.mem_iff).mp hitcell
    rcases List.mem_filter.mp hitfil with ⟨_, hitnm⟩
    rcases SpatialGrid2D.coordPred_true_iff.mp hitcoord with ⟨hx2, hy2⟩
    have : SpatialGrid2D.matchPred x y v it = true :=
      SpatialGrid2D.matchPred_true_iff.mpr ⟨hx2, hy2, hitval⟩
    rw [this] at hitnm
    exact absurd hitnm (by simp)

/-- Witness for C4 on `gridC4`: removing an absent value throws and leaves
the state unchanged; removing the present value `5` succeeds with all the
claimed effects. -/
theorem removeAt_claim_witness :
    gridC4.removeAt 1 1 9 = (.error .notFoundError, gridC4) ∧
    ((gridC4.removeAt 1 1 5).1 = .ok () ∧
     (gridC4.removeAt 1 1 5).2.size =
       gridC4.size - ((cellC4.countP (SpatialGrid2D.matchPred 1 1 5)) : ℤ) ∧
     1 ≤ cellC4.countP (SpatialGrid2D.matchPred 1 1 5) ∧
     (∃ cell2,
        getCell (gridC4.removeAt 1 1 5).2.buckets (gridC4.bxIdx 1) (gridC4.byIdx 1) =
          some cell2 ∧
        cell2.Perm (cellC4.filter (fun it => ! SpatialGrid2D.matchPred 1 1 5 it))) ∧
     ∃ l, (gridC4.removeAt 1 1 5).2.get 1 1 = .ok l ∧ 5 ∉ l) :=
  ⟨(removeAt_claim gridC4 1 1 9 cellC4 (by decide) (by decide)).1 (by decide),
   (removeAt_claim gridC4 1 1 5 cellC4 (by decide) (by decide)).2 (by decide)⟩

theorem filter_match_singleton {T : Type} [DecidableEq T] {a b : ℚ} {v : T}
    {cell : List (Item T)}
    (h1 : cell.countP (SpatialGrid2D.matchPred a b v) = 1) :
    cell.filter (SpatialGrid2D.matchPred a b v) = [⟨a, b, v⟩] := by
  have hlen : (cell.filter (SpatialGrid2D.matchPred a b v)).length = 1 := by
    rw [← List.countP_eq_length_filter]
    exact h1
  have hall : ∀ it ∈ cell.filter (SpatialGrid2D.matchPred a b v), it = (⟨a, b, v⟩ : Item T) := by
    intro it hit
    rcases List.mem_filter.mp hit with ⟨_, hm⟩
    rcases SpatialGrid2D.matchPred_true_iff.mp hm with ⟨hx, hy, hv⟩
    cases it
    simp only [] at hx hy hv
    rw [hx, hy, hv]
  have := List.eq_replicate.mpr ⟨hlen, hall⟩
  rw [this]
  rfl

/-- C5 counterexample: with the value `7` stored TWICE at `(0, 0)` of
`gridC5`, the claim's `move(0,0,1,0,7)` succeeds but `size` drops from `2`
to `1` (the removal removes both copies, the insert restores one), so
"`size` is unchanged" fails; the same duplicate state makes a
source-equals-destination `move` shrink the grid, so the unconditional
no-op claim fails too. -/
theorem move_duplicate_value_shrinks_size :
    gridC5.size = 2 ∧
    (gridC5.move 0 0 1 0 7).1 = .ok () ∧
    (gridC5.move 0 0 1 0 7).2.size = 1 ∧
    (gridC5.move 0 0 0 0 7).2.size = 1 := by
  refine ⟨by decide, by decide, by decide, by decide⟩

/-- C5 amended: for every in-bounds source `(a, b)` and destination
`(c, d)` and every value `v` stored EXACTLY ONCE at `(a, b)` (the owning
bucket holds exactly one record matching `(a, b, v)`): `move` succeeds,
`size` is unchanged, `get(c, d)` contains `v`, `get(a, b)` no longer
contains `v` when `(a, b) ≠ (c, d)`, and when `(a, b) = (c, d)` every
`get` result is unchanged up to order (the swap-remove plus re-append may
rotate the bucket). -/
theorem move_claim {T : Type} [DecidableEq T] (s : SpatialGrid2D T) (a b c d : ℚ)
    (v : T) (cellAB : List (Item T)) (hrect : s.Rectangular) (hpos : s.PosDims)
    (hab : s.InBounds a b) (hcd : s.InBounds c d)
    (hcell : getCell s.buckets (s.bxIdx a) (s.byIdx b) = some cellAB)
    (huniq : cellAB.countP (SpatialGrid2D.matchPred a b v) = 1) :
    (s.move a b c d v).1 = .ok () ∧
    (s.move a b c d v).2.size = s.size ∧
    (∃ l, (s.move a b c d v).2.get c d = .ok l ∧ v ∈ l) ∧
    (¬(a = c ∧ b = d) → ∃ l, (s.move a b c d v).2.get a b = .ok l ∧ v ∉ l) ∧
    ((a = c ∧ b = d) → ∀ x y, s.InBounds x y →
      ∃ l l2, s.get x y = .ok l ∧ (s.move a b c d v).2.get x y = .ok l2 ∧ l2.Perm l) := by
  obtain ⟨hxlo, hylo, hN⟩ := getCell_eq_some_parts hcell
  have hspec := SpatialGrid2D.removeLoop_spec (SpatialGrid2D.matchPred a b v) cellAB
  have hne0 : ¬(SpatialGrid2D.removeLoop (SpatialGrid2D.matchPred a b v)
      cellAB 0 cellAB.length 0).2 = 0 := by
    rw [hspec.2, huniq]
    omega
  set cellRem := (SpatialGrid2D.removeLoop (SpatialGrid2D.matchPred a b v)
    cellAB 0 cellAB.length 0).1 with hcellRem
  set s1 : SpatialGrid2D T :=
    { s with
      buckets := setCellN s.buckets (s.bxIdx a).toNat (s.byIdx b).toNat cellRem
      size := s.size - ((SpatialGrid2D.removeLoop (SpatialGrid2D.matchPred a b v)
        cellAB 0 cellAB.length 0).2 : ℤ) } with hs1
  have hrm : s.removeAt a b v = (.ok (), s1) := by
    rw [SpatialGrid2D.removeAt_eq hab hcell, if_neg hne0]
  have hmv : s.move a b c d v = s1.insertAt c d v := by
    rw [SpatialGrid2D.move, hrm]
  have hs1size : s1.size = s.size - 1 := by
    show s.size - ((SpatialGrid2D.removeLoop (SpatialGrid2D.matchPred a b v)
      cellAB 0 cellAB.length 0).2 : ℤ) = s.size - 1
    rw [hspec.2, huniq]
    rfl
  have hrect1 : s1.Rectangular := SpatialGrid2D.rectangular_setCellN hrect hN
  have hpos1 : s1.PosDims := hpos
  have hcd1 : s1.InBounds c d := hcd
  obtain ⟨cellCD, hcellCD⟩ := SpatialGrid2D.owningCell_exists hrect1 hpos1 hcd1
  obtain ⟨hclo, hdlo, hNCD⟩ := getCell_eq_some_parts hcellCD
  have hins : s1.insertAt c d v =
      (.ok (), { s1 with
        buckets := setCellN s1.buckets (s1.bxIdx c).toNat (s1.byIdx d).toNat
          (cellCD ++ [⟨c, d, v⟩])
        size := s1.size + 1 }) := SpatialGrid2D.insertAt_spec hcd1 hcellCD
  set s2 : SpatialGrid2D T :=
    { s1 with
      buckets := setCellN s1.buckets (s1.bxIdx c).toNat (s1.byIdx d).toNat
        (cellCD ++ [⟨c, d, v⟩])
      size := s1.size + 1 } with hs2
  have hmv2 : s.move a b c d v = (.ok (), s2) := by rw [hmv, hins]
  have hb2cd : s2.InBounds c d := hcd
  have hcellCD2 : getCell s2.buckets (s2.bxIdx c) (s2.byIdx d) =
      some (cellCD ++ [⟨c, d, v⟩]) := by
    show getCell (setCellN s1.buckets (s1.bxIdx c).toNat (s1.byIdx d).toNat
      (cellCD ++ [⟨c, d, v⟩])) (s1.bxIdx c) (s1.byIdx d) = _
    rw [getCell_nonneg _ hclo hdlo]
    exact getCellN_setCellN_same hNCD _
  -- membership of records of the `(a, b)` bucket of `s2`
  have hremNoMatch : ∀ it ∈ cellRem, SpatialGrid2D.matchPred a b v it = false := by
    intro it hit
    have := (hspec.1.mem_iff).mp hit
    rcases List.mem_filter.mp this with ⟨_, hnm⟩
    simp only [Bool.not_eq_true'] at hnm
    exact hnm
  refine ⟨by rw [hmv2], by rw [hmv2]; show s1.size + 1 = s.size; omega, ?_, ?_, ?_⟩
  · -- get (c, d) contains v
    rw [hmv2]
    show ∃ l, s2.get c d = .ok l ∧ v ∈ l
    rw [SpatialGrid2D.get_spec hb2cd hcellCD2]
    refine ⟨_, rfl, ?_⟩
    simp [SpatialGrid2D.coordPred, List.filter_append]
  · -- get (a, b) excludes v when the coordinates differ
    intro hne
    rw [hmv2]
    show ∃ l, s2.get a b = .ok l ∧ v ∉ l
    have hab2 : s2.InBounds a b := hab
    -- the `(a, b)` bucket of `s1` is `cellRem`
    have hNab1 : getCellN s1.buckets (s.bxIdx a).toNat (s.byIdx b).toNat = some cellRem :=
      getCellN_setCellN_same hN _
    -- compare bucket indices of `(a, b)` and `(c, d)` as naturals
    by_cases hsame : (s.bxIdx c).toNat = (s.bxIdx a).toNat ∧
        (s.byIdx d).toNat = (s.byIdx b).toNat
    · have hCDisRem : cellCD = cellRem := by
        have h3 : getCellN s1.buckets (s.bxIdx c).toNat (s.byIdx d).toNat = some cellCD := hNCD
        rw [hsame.1, hsame.2] at h3
        rw [h3] at hNab1
        exact Option.some_inj.mp hNab1
      have hcellAB2 : getCell s2.buckets (s2.bxIdx a) (s2.byIdx b) =
          some (cellCD ++ [⟨c, d, v⟩]) := by
        show getCell (setCellN s1.buckets (s1.bxIdx c).toNat (s1.byIdx d).toNat
          (cellCD ++ [⟨c, d, v⟩])) (s.bxIdx a) (s.byIdx b) = _
        rw [getCell_nonneg _ hxlo hylo]
        show getCellN (setCellN s1.buckets (s.bxIdx c).toNat (s.byIdx d).toNat
          (cellCD ++ [⟨c, d, v⟩])) (s.bxIdx a).toNat (s.byIdx b).toNat = _
        rw [hsame.1, hsame.2]
        exact getCellN_setCellN_same (hCDisRem ▸ hNab1) _
      rw [SpatialGrid2D.get_spec hab2 hcellAB2]
      refine ⟨_, rfl, ?_⟩
      intro hvmem
      rcases List.mem_map.mp hvmem with ⟨it, hitmem, hitval⟩
      rcases List.mem_filter.mp hitmem with ⟨hitcell, hitcoord⟩
      rcases SpatialGrid2D.coordPred_true_iff.mp hitcoord with ⟨hx2, hy2⟩
      rcases List.mem_append.mp hitcell with hin | hin
      · rw [hCDisRem] at hin
        have := hremNoMatch it hin
        rw [SpatialGrid2D.matchPred_true_iff.mpr ⟨hx2, hy2, hitval⟩] at this
        exact absurd this (by simp)
      · rcases List.mem_singleton.mp hin with rfl
        simp only [] at hx2 hy2
        exact hne ⟨hx2.symm, hy2.symm⟩
    · have hcellAB2 : getCell s2.buckets (s2.bxIdx a) (s2.byIdx b) = some cellRem := by
        show getCell (setCellN s1.buckets (s1.bxIdx c).toNat (s1.byIdx d).toNat
          (cellCD ++ [⟨c, d, v⟩])) (s.bxIdx a) (s.byIdx b) = _
        rw [getCell_nonneg _ hxlo hylo]
        rw [getCellN_setCellN_ne _ _ _ _ _ _ (by tauto)]
        exact hNab1
      rw [SpatialGrid2D.get_spec hab2 hcellAB2]
      refine ⟨_, rfl, ?_⟩
      intro hvmem
      rcases List.mem_map.mp hvmem with ⟨it, hitmem, hitval⟩
      rcases List.mem_filter.mp hitmem with ⟨hitcell, hitcoord⟩
      rcases SpatialGrid2D.coordPred_true_iff.mp hitcoord with ⟨hx2, hy2⟩
      have := hremNoMatch it hitcell
      rw [SpatialGrid2D.matchPred_true_iff.mpr ⟨hx2, hy2, hitval⟩] at this
      exact absurd this (by simp)
  · -- source = destination: every get is preserved up to order
    rintro ⟨rfl, rfl⟩ x y hxyb
    rw [hmv2]
    -- the mutated bucket of `s2` is a permutation of the original one
    have hNab1 : getCellN s1.buckets (s.bxIdx a).toNat (s.byIdx b).toNat = some cellRem :=
      getCellN_setCellN_same hN _
    have hCDisRem : cellCD = cellRem := by
      have h2 : getCellN s1.buckets (s.bxIdx a).toNat (s.byIdx b).toNat = some cellCD := hNCD
      rw [h2] at hNab1
      exact Option.some_inj.mp hNab1
    have hperm : (cellCD ++ [(⟨a, b, v⟩ : Item T)]).Perm cellAB := by
      rw [hCDisRem]
      refine (List.perm_append_singleton _ _).trans ?_
      refine (hspec.1.cons _).trans ?_
      have hsingle := filter_match_singleton (T := T) huniq
      have hsplit := List.filter_append_perm (SpatialGrid2D.matchPred a b v) cellAB
      rw [hsingle] at hsplit
      exact hsplit
    obtain ⟨cellXY, hcellXY⟩ := SpatialGrid2D.owningCell_exists hrect hpos hxyb
    obtain ⟨hx2lo, hy2lo, hNXY⟩ := getCell_eq_some_parts hcellXY
    have hxy2 : s2.InBounds x y := hxyb
    rw [SpatialGrid2D.get_spec hxyb hcellXY]
    by_cases hsame : (s.bxIdx x).toNat = (s.bxIdx a).toNat ∧
        (s.byIdx y).toNat = (s.byIdx b).toNat
    · -- same bucket: its contents changed only up to permutation
      have hXYisAB : cellXY = cellAB := by
        rw [getCell_nonneg _ hx2lo hy2lo] at hcellXY
        rw [hsame.1, hsame.2] at hcellXY
        rw [hN] at hcellXY
        exact (Option.some_inj.mp hcellXY).symm
      have hcellXY2 : getCell s2.buckets (s2.bxIdx x) (s2.byIdx y) =
          some (cellCD ++ [⟨a, b, v⟩]) := by
        show getCell (setCellN s1.buckets (s1.bxIdx a).toNat (s1.byIdx b).toNat
          (cellCD ++ [⟨a, b, v⟩])) (s.bxIdx x) (s.byIdx y) = _
        rw [getCell_nonneg _ hx2lo hy2lo]
        show getCellN (setCellN s1.buckets (s.bxIdx a).toNat (s.byIdx b).toNat
          (cellCD ++ [⟨a, b, v⟩])) (s.bxIdx x).toNat (s.byIdx y).toNat = _
        rw [hsame.1, hsame.2]
        exact getCellN_setCellN_same hNab1 _
      rw [SpatialGrid2D.get_spec hxy2 hcellXY2]
      refine ⟨_, _, rfl, rfl, ?_⟩
      refine List.Perm.map _ (List.Perm.filter _ ?_)
      rw [← hXYisAB] at hperm
      exact hperm
    · -- other buckets: untouched
      have hcellXY2 : getCell s2.buckets (s2.bxIdx x) (s2.byIdx y) = some cellXY := by
        show getCell (setCellN s1.buckets (s1.bxIdx a).toNat (s1.byIdx b).toNat
          (cellCD ++ [⟨a, b, v⟩])) (s.bxIdx x) (s.byIdx y) = _
        rw [getCell_nonneg _ hx2lo hy2lo]
        rw [getCellN_setCellN_ne _ _ _ _ _ _ (by tauto)]
        show getCellN (setCellN s.buckets (s.bxIdx a).toNat (s.byIdx b).toNat cellRem)
          (s.bxIdx x).toNat (s.byIdx y).toNat = _
        rw [getCellN_setCellN_ne _ _ _ _ _ _ (by tauto)]
        exact hNXY
      rw [SpatialGrid2D.get_spec hxy2 hcellXY2]
      exact ⟨_, _, rfl, rfl, List.Perm.refl _⟩

/-- Witness for C5 (amended) on `gridC4` (the value `5` stored exactly once
at `(1, 1)`). -/
theorem move_claim_witness :
    (gridC4.move 1 1 2 2 5).1 = .ok () ∧
    (gridC4.move 1 1 2 2 5).2.size = gridC4.size ∧
    (∃ l, (gridC4.move 1 1 2 2 5).2.get 2 2 = .ok l ∧ 5 ∈ l) ∧
    (∃ l, (gridC4.move 1 1 2 2 5).2.get 1 1 = .ok l ∧ 5 ∉ l) := by
  have h := move_claim gridC4 1 1 2 2 5 cellC4 (by decide) (by decide) (by decide)
    (by decide) (by decide) (by decide)
  exact ⟨h.1, h.2.1, h.2.2.1, h.2.2.2.1 (by decide)⟩

/-- Witness for C7 at `initialSize 5`, `autoHydrateSize 3` over `ℕ`. -/
theorem pool_hydration_counts_witness :
    ((FastPool.mkPool (fun i => i) 5 3).hydrations = 5 ∧
     ((FastPool.mkPool (fun i => i) 5 3).getOnes 5).hydrations = 5 ∧
     ((FastPool.mkPool (fun i => i) 5 3).getOnes 5).indexInPool = 0 ∧
     ((FastPool.mkPool (fun i => i) 5 3).getOnes (5 + 1)).hydrations = 5 + 3) ∧
    (∃ s0 s1 s2, SlowPool.mkPool (fun i => i) 5 3 = .ok s0 ∧ s0.hydrations = 5 ∧
      s0.getOnes 5 = .ok s1 ∧ s1.hydrations = 5 ∧ s1.indexInPool = 0 ∧
      s0.getOnes (5 + 1) = .ok s2 ∧ s2.hydrations = 5 + 3) :=
  pool_hydration_counts (fun i => i) 5 3 (fun _ _ h => h)

/-! ### The resize walk (C6) -/

theorem getCellN_setCellN_isSome {T : Type} (b : Buckets T) (ix iy i j : ℕ)
    (c : List (Item T)) :
    (getCellN (setCellN b ix iy c) i j).isSome = (getCellN b i j).isSome := by
  by_cases hij : i = ix ∧ j = iy
  · obtain ⟨rfl, rfl⟩ := hij
    cases hcell : getCellN b i j with
    | some cell =>
      rw [getCellN_setCellN_same hcell c]
      rfl
    | none =>
      rw [setCellN]
      cases hrow : b.get? i with
      | none => rw [hcell]
      | some row =>
        rw [List.get?_eq_getElem?] at hrow
        have hi : i < b.length := (List.getElem?_eq_some_iff.mp hrow).1
        have hj : row.get? j = none := by
          rw [getCellN, List.get?_eq_getElem?, hrow] at hcell
          simpa using hcell
        rw [List.get?_eq_getElem?] at hj
        have hjlen : row.length ≤ j := List.getElem?_eq_none_iff.mp hj
        rw [getCellN, List.get?_eq_getElem?, List.getElem?_set_self hi]
        simp only [Option.some_bind]
        rw [List.get?_eq_getElem?]
        have hset : (row.set j c)[j]? = none := by
          rw [List.getElem?_eq_none_iff, List.length_set]
          exact hjlen
        rw [hset]
  · rw [getCellN_setCellN_ne b ix iy i j c (by tauto)]

namespace SpatialGrid2D

/-- The full behaviour of `resize`'s per-record walk: the destructor-call
list extends the accumulator with the `(value, x, y)` of every record
outside the new grid bounds, in traversal order, and each new bucket ends up
holding its initial contents followed by exactly the surviving records filed
to it, in traversal order. -/
theorem resizeLoop_spec {T : Type} (gw gh bw bh : ℚ) (items : List (Item T)) :
    ∀ (nb : Buckets T) (acc : List (T × ℚ × ℚ)),
    (∀ it ∈ items, ¬gw ≤ it.x → ¬gh ≤ it.y →
      (getCellN nb (jsTruncDiv it.x bw).toNat (jsTruncDiv it.y bh).toNat).isSome) →
    (∀ it ∈ items, ¬gw ≤ it.x → ¬gh ≤ it.y →
      0 ≤ jsTruncDiv it.x bw ∧ 0 ≤ jsTruncDiv it.y bh) →
    ∃ nb2,
      resizeLoop gw gh bw bh items nb acc =
        some (nb2, acc ++ (items.filter fun it =>
          decide (gw ≤ it.x) || decide (gh ≤ it.y)).map fun it => (it.value, it.x, it.y)) ∧
      ∀ i j c, getCellN nb i j = some c →
        getCellN nb2 i j = some (c ++ items.filter fun it =>
          (!(decide (gw ≤ it.x) || decide (gh ≤ it.y))) &&
          decide ((jsTruncDiv it.x bw).toNat = i) && decide ((jsTruncDiv it.y bh).toNat = j)) := by
  induction items with
  | nil =>
    intro nb acc _ _
    refine ⟨nb, by simp [resizeLoop], ?_⟩
    intro i j c hc
    rw [List.filter_nil, List.append_nil]
    exact hc
  | cons it rest ih =>
    intro nb acc hplace hnn
    by_cases hout : (decide (gw ≤ it.x) || decide (gh ≤ it.y)) = true
    · obtain ⟨nb2, hrun, hcells⟩ := ih nb (acc ++ [(it.value, it.x, it.y)])
        (fun it2 h2 => hplace it2 (List.mem_cons_of_mem _ h2))
        (fun it2 h2 => hnn it2 (List.mem_cons_of_mem _ h2))
      refine ⟨nb2, ?_, ?_⟩
      · have hfc : (it :: rest).filter
              (fun it2 => decide (gw ≤ it2.x) || decide (gh ≤ it2.y)) =
            it :: rest.filter (fun it2 => decide (gw ≤ it2.x) || decide (gh ≤ it2.y)) :=
          List.filter_cons_of_pos (by exact hout)
        simp only [resizeLoop]
        rw [if_pos hout, hrun, hfc, List.map_cons]
        simp
      · intro i j c hc
        have hfc2 : (it :: rest).filter
              (fun it2 => (!(decide (gw ≤ it2.x) || decide (gh ≤ it2.y))) &&
                decide ((jsTruncDiv it2.x bw).toNat = i) &&
                decide ((jsTruncDiv it2.y bh).toNat = j)) =
            rest.filter (fun it2 => (!(decide (gw ≤ it2.x) || decide (gh ≤ it2.y))) &&
                decide ((jsTruncDiv it2.x bw).toNat = i) &&
                decide ((jsTruncDiv it2.y bh).toNat = j)) :=
          List.filter_cons_of_neg (by simp [hout])
        rw [hfc2]
        exact hcells i j c hc
    · have hngw : ¬gw ≤ it.x := fun hc => hout (by simp [hc])
      have hngh : ¬gh ≤ it.y := fun hc => hout (by simp [hc])
      have hfalse : (decide (gw ≤ it.x) || decide (gh ≤ it.y)) = false := by
        simp [hngw, hngh]
      obtain ⟨c0, hc0⟩ := Option.isSome_iff_exists.mp
        (hplace it (List.mem_cons_self it rest) hngw hngh)
      obtain ⟨hnnx, hnny⟩ := hnn it (List.mem_cons_self it rest) hngw hngh
      have hgc : getCell nb (jsTruncDiv it.x bw) (jsTruncDiv it.y bh) = some c0 := by
        rw [getCell_nonneg nb hnnx hnny]
        exact hc0
      have hmod := modifyCell_isSome (fun cell => cell ++ [it]) hgc
      obtain ⟨nb2, hrun, hcells⟩ := ih
        (setCellN nb (jsTruncDiv it.x bw).toNat (jsTruncDiv it.y bh).toNat (c0 ++ [it])) acc
        (fun it2 h2 hgw2 hgh2 => by
          rw [getCellN_setCellN_isSome]
          exact hplace it2 (List.mem_cons_of_mem _ h2) hgw2 hgh2)
        (fun it2 h2 => hnn it2 (List.mem_cons_of_mem _ h2))
      refine ⟨nb2, ?_, ?_⟩
      · have hfc : (it :: rest).filter
              (fun it2 => decide (gw ≤ it2.x) || decide (gh ≤ it2.y)) =
            rest.filter (fun it2 => decide (gw ≤ it2.x) || decide (gh ≤ it2.y)) :=
          List.filter_cons_of_neg (by exact hout)
        rw [hfc]
        simp only [resizeLoop]
        rw [if_neg hout, hmod]
        exact hrun
      · intro i j c hc
        by_cases hij : (jsTruncDiv it.x bw).toNat = i ∧ (jsTruncDiv it.y bh).toNat = j
        · obtain ⟨hi, hj⟩ := hij
          subst hi
          subst hj
          have hceq : c = c0 := by
            rw [hc0] at hc
            exact (Option.some_inj.mp hc).symm
          subst hceq
          have hfc : (it :: rest).filter
                (fun it2 => (!(decide (gw ≤ it2.x) || decide (gh ≤ it2.y))) &&
                  decide ((jsTruncDiv it2.x bw).toNat = (jsTruncDiv it.x bw).toNat) &&
                  decide ((jsTruncDiv it2.y bh).toNat = (jsTruncDiv it.y bh).toNat)) =
              it :: rest.filter
                (fun it2 => (!(decide (gw ≤ it2.x) || decide (gh ≤ it2.y))) &&
                  decide ((jsTruncDiv it2.x bw).toNat = (jsTruncDiv it.x bw).toNat) &&
                  decide ((jsTruncDiv it2.y bh).toNat = (jsTruncDiv it.y bh).toNat)) :=
            List.filter_cons_of_pos (by simp [hfalse])
          rw [hfc, List.append_cons]
          exact hcells _ _ _ (getCellN_setCellN_same hc0 (c ++ [it]))
        · have hpfalse : ¬((!(decide (gw ≤ it.x) || decide (gh ≤ it.y))) &&
              decide ((jsTruncDiv it.x bw).toNat = i) &&
              decide ((jsTruncDiv it.y bh).toNat = j)) = true := by
            simp only [Bool.and_eq_true, decide_eq_true_eq]
            tauto
          have hfc : (it :: rest).filter
                (fun it2 => (!(decide (gw ≤ it2.x) || decide (gh ≤ it2.y))) &&
                  decide ((jsTruncDiv it2.x bw).toNat = i) &&
                  decide ((jsTruncDiv it2.y bh).toNat = j)) =
              rest.filter
                (fun it2 => (!(decide (gw ≤ it2.x) || decide (gh ≤ it2.y))) &&
                  decide ((jsTruncDiv it2.x bw).toNat = i) &&
                  decide ((jsTruncDiv it2.y bh).toNat = j)) :=
            List.filter_cons_of_neg (by exact hpfalse)
          rw [hfc]
          refine hcells i j c ?_
          rw [getCellN_setCellN_ne _ _ _ _ _ _ (by tauto)]
          exact hc

end SpatialGrid2D

/-- C6: for positive new bucket dimensions, on a state whose records all
carry non-negative coordinates and whose `_size` matches the record count,
`resize(gw, gh, bw, bh)` (i) invokes the destructor callback exactly once
per record lying outside the new grid bounds, with the record's original
`(value, x, y)`, in traversal order; (ii) leaves `size` equal to the number
of surviving records; (iii) keeps every surviving record retrievable by
`get` at its original coordinate; and (iv) makes every destroyed record
unretrievable — `get` at its coordinate now throws a `BoundsError`. -/
theorem resize_claim {T : Type} [DecidableEq T] (s : SpatialGrid2D T) (gw gh bw bh : ℚ)
    (hbw : 0 < bw) (hbh : 0 < bh)
    (hwf : ∀ it ∈ s.allItems, 0 ≤ it.x ∧ 0 ≤ it.y)
    (hsz : s.size = (s.allItems.length : ℤ)) :
    (s.resize (some gw) (some gh) (some bw) (some bh)).1 =
      .ok ((s.allItems.filter fun it => decide (gw ≤ it.x) || decide (gh ≤ it.y)).map
        fun it => (it.value, it.x, it.y)) ∧
    (s.resize (some gw) (some gh) (some bw) (some bh)).2.size =
      ((s.allItems.filter fun it => !(decide (gw ≤ it.x) || decide (gh ≤ it.y))).length : ℤ) ∧
    (∀ it ∈ s.allItems, ¬gw ≤ it.x → ¬gh ≤ it.y →
      ∃ l, (s.resize (some gw) (some gh) (some bw) (some bh)).2.get it.x it.y = .ok l ∧
        it.value ∈ l) ∧
    (∀ it ∈ s.allItems, gw ≤ it.x ∨ gh ≤ it.y →
      (s.resize (some gw) (some gh) (some bw) (some bh)).2.get it.x it.y =
        .error .boundsError) := by
  have hidx : ∀ it ∈ s.allItems, ¬gw ≤ it.x → ¬gh ≤ it.y →
      0 ≤ jsTruncDiv it.x bw ∧ (jsTruncDiv it.x bw).toNat < (jsCeilDiv gw bw).toNat ∧
      0 ≤ jsTruncDiv it.y bh ∧ (jsTruncDiv it.y bh).toNat < (jsCeilDiv gh bh).toNat := by
    intro it hm hx hy
    obtain ⟨h0x, h0y⟩ := hwf it hm
    obtain ⟨ha1, ha2⟩ := bucketIdx_range hbw h0x (not_le.mp hx)
    obtain ⟨hb1, hb2⟩ := bucketIdx_range hbh h0y (not_le.mp hy)
    exact ⟨ha1, by omega, hb1, by omega⟩
  have hplace : ∀ it ∈ s.allItems, ¬gw ≤ it.x → ¬gh ≤ it.y →
      (getCellN (List.replicate (jsCeilDiv gw bw).toNat
          (List.replicate (jsCeilDiv gh bh).toNat []) : Buckets T)
        (jsTruncDiv it.x bw).toNat (jsTruncDiv it.y bh).toNat).isSome := by
    intro it hm hx hy
    obtain ⟨_, h1, _, h2⟩ := hidx it hm hx hy
    rw [getCellN_replicate, if_pos ⟨h1, h2⟩]
    rfl
  have hnn : ∀ it ∈ s.allItems, ¬gw ≤ it.x → ¬gh ≤ it.y →
      0 ≤ jsTruncDiv it.x bw ∧ 0 ≤ jsTruncDiv it.y bh := by
    intro it hm hx hy
    obtain ⟨h1, _, h2, _⟩ := hidx it hm hx hy
    exact ⟨h1, h2⟩
  obtain ⟨nb2, hrun, hcells⟩ := SpatialGrid2D.resizeLoop_spec gw gh bw bh s.allItems
    (List.replicate (jsCeilDiv gw bw).toNat (List.replicate (jsCeilDiv gh bh).toNat []))
    [] hplace hnn
  have hunfold : s.resize (some gw) (some gh) (some bw) (some bh) =
      match SpatialGrid2D.resizeLoop gw gh bw bh s.allItems
        (List.replicate (jsCeilDiv gw bw).toNat (List.replicate (jsCeilDiv gh bh).toNat []))
        [] with
      | none => (.error .typeError, s)
      | some (nb, destroyed) =>
        (.ok destroyed,
          { gridWidth := gw, gridHeight := gh, bucketWidth := bw, bucketHeight := bh,
            size := s.size - (destroyed.length : ℤ), buckets := nb }) := rfl
  have hres : s.resize (some gw) (some gh) (some bw) (some bh) =
      (.ok ((s.allItems.filter fun it => decide (gw ≤ it.x) || decide (gh ≤ it.y)).map
        fun it => (it.value, it.x, it.y)),
       { gridWidth := gw, gridHeight := gh, bucketWidth := bw, bucketHeight := bh,
         size := s.size - (((s.allItems.filter fun it =>
           decide (gw ≤ it.x) || decide (gh ≤ it.y)).map
           fun it => (it.value, it.x, it.y)).length : ℤ),
         buckets := nb2 }) := by
    rw [List.nil_append] at hrun
    rw [hunfold, hrun]
  refine ⟨by rw [hres], ?_, ?_, ?_⟩
  · rw [hres]
    show s.size - _ = _
    have hsplit : s.allItems.length =
        (s.allItems.filter fun it => decide (gw ≤ it.x) || decide (gh ≤ it.y)).length +
        (s.allItems.filter fun it => !(decide (gw ≤ it.x) || decide (gh ≤ it.y))).length :=
      List.length_eq_length_filter_add _
    rw [List.length_map]
    omega
  · intro it hm hx hy
    obtain ⟨h1, h2, h3, h4⟩ := hidx it hm hx hy
    obtain ⟨h0x, h0y⟩ := hwf it hm
    rw [hres]
    have hcell0 : getCellN (List.replicate (jsCeilDiv gw bw).toNat
          (List.replicate (jsCeilDiv gh bh).toNat []) : Buckets T)
        (jsTruncDiv it.x bw).toNat (jsTruncDiv it.y bh).toNat = some [] := by
      rw [getCellN_replicate, if_pos ⟨h2, h4⟩]
    have hcell2 := hcells _ _ _ hcell0
    rw [List.nil_append] at hcell2
    set s2 : SpatialGrid2D T :=
      { gridWidth := gw, gridHeight := gh, bucketWidth := bw, bucketHeight := bh,
        size := s.size - (((s.allItems.filter fun it =>
          decide (gw ≤ it.x) || decide (gh ≤ it.y)).map
          fun it => (it.value, it.x, it.y)).length : ℤ),
        buckets := nb2 } with hs2
    have hb2 : s2.InBounds it.x it.y := ⟨h0x, not_le.mp hx, h0y, not_le.mp hy⟩
    have hcellg : getCell s2.buckets (s2.bxIdx it.x) (s2.byIdx it.y) =
        some (s.allItems.filter fun it2 =>
          (!(decide (gw ≤ it2.x) || decide (gh ≤ it2.y))) &&
          decide ((jsTruncDiv it2.x bw).toNat = (jsTruncDiv it.x bw).toNat) &&
          decide ((jsTruncDiv it2.y bh).toNat = (jsTruncDiv it.y bh).toNat)) := by
      show getCell nb2 (jsTruncDiv it.x bw) (jsTruncDiv it.y bh) = _
      rw [getCell_nonneg nb2 h1 h3]
      exact hcell2
    rw [SpatialGrid2D.get_spec hb2 hcellg]
    refine ⟨_, rfl, ?_⟩
    refine List.mem_map.mpr ⟨it, List.mem_filter.mpr ⟨List.mem_filter.mpr ⟨hm, ?_⟩, ?_⟩, rfl⟩
    · simp [hx, hy]
    · simp [SpatialGrid2D.coordPred]
  · intro it hm hor
    rw [hres]
    show SpatialGrid2D.get _ it.x it.y = .error .boundsError
    rw [SpatialGrid2D.get, if_pos ?_]
    simp only [SpatialGrid2D.outOfBounds, Bool.or_eq_true, decide_eq_true_eq]
    tauto

/-- Witness for C6 on `gridC6`: shrinking the 4×4 grid to 2×2 (with 1×1
buckets) destroys exactly the record `(11, 3, 3)`, leaves `size = 1`, keeps
the value `10` retrievable at `(1, 1)`, and makes `get(3, 3)` throw. -/
theorem resize_claim_witness :
    (gridC6.resize (some 2) (some 2) (some 1) (some 1)).1 = .ok [(11, 3, 3)] ∧
    (gridC6.resize (some 2) (some 2) (some 1) (some 1)).2.size = 1 ∧
    (∃ l, (gridC6.resize (some 2) (some 2) (some 1) (some 1)).2.get 1 1 = .ok l ∧ 10 ∈ l) ∧
    (gridC6.resize (some 2) (some 2) (some 1) (some 1)).2.get 3 3 =
      .error .boundsError := by
  have h := resize_claim gridC6 2 2 1 1 (by decide) (by decide) (by decide) (by decide)
  refine ⟨?_, ?_, ?_, ?_⟩
  · rw [h.1]
    decide
  · rw [h.2.1]
    decide
  · exact h.2.2.1 ⟨1, 1, 10⟩ (by decide) (by decide) (by decide)
  · exact h.2.2.2 ⟨3, 3, 11⟩ (by decide) (Or.inl (by decide))

/-! ### The size/forEach invariant (C1) -/

theorem length_allItems {T : Type} (s : SpatialGrid2D T) :
    s.allItems.length = sumCounts s.buckets := by
  have hfun : (List.length ∘ List.flatten : List (List (Item T)) → ℕ) =
      fun row => (row.map List.length).sum := funext fun row => List.length_join row
  rw [SpatialGrid2D.allItems, List.length_join, List.map_map, hfun, sumCounts]

theorem insertAt_ok_counts {T : Type} [DecidableEq T] {s s1 : SpatialGrid2D T}
    {x y : ℚ} {v : T} {u : Unit} (h : s.insertAt x y v = (.ok u, s1)) :
    s1.size = s.size + 1 ∧ sumCounts s1.buckets = sumCounts s.buckets + 1 := by
  rw [SpatialGrid2D.insertAt] at h
  by_cases hb : s.outOfBounds x y = true
  · rw [if_pos hb] at h
    simp at h
  · rw [if_neg hb] at h
    cases hmod : modifyCell s.buckets (s.bxIdx x) (s.byIdx y)
        (fun cell => cell ++ [⟨x, y, v⟩]) with
    | none =>
      rw [hmod] at h
      simp at h
    | some b2 =>
      rw [hmod] at h
      obtain ⟨cell, hget, hb2⟩ := modifyCell_eq_some hmod
      obtain ⟨_, _, hN⟩ := getCell_eq_some_parts hget
      have hsc := sumCounts_setCellN hN (cell ++ [⟨x, y, v⟩])
      simp only [List.length_append, List.length_cons, List.length_nil] at hsc
      have hs1 : s1 = { s with buckets := b2, size := s.size + 1 } :=
        (congrArg Prod.snd h).symm
      subst hs1
      refine ⟨rfl, ?_⟩
      show sumCounts b2 = sumCounts s.buckets + 1
      rw [hb2]
      show sumCounts (setCellN s.buckets (s.bxIdx x).toNat (s.byIdx y).toNat
        (cell ++ [⟨x, y, v⟩])) = sumCounts s.buckets + 1
      omega

theorem removeAt_ok_counts {T : Type} [DecidableEq T] {s s1 : SpatialGrid2D T}
    {x y : ℚ} {v : T} {u : Unit} (h : s.removeAt x y v = (.ok u, s1)) :
    ∃ k : ℕ, s1.size = s.size - (k : ℤ) ∧ sumCounts s1.buckets + k = sumCounts s.buckets := by
  by_cases hb : s.outOfBounds x y = true
  · rw [SpatialGrid2D.removeAt, if_pos hb] at h
    simp at h
  · have hab : s.InBounds x y := SpatialGrid2D.outOfBounds_eq_false.mp
      (by revert hb; cases s.outOfBounds x y <;> simp)
    cases hcell : getCell s.buckets (s.bxIdx x) (s.byIdx y) with
    | none =>
      rw [SpatialGrid2D.removeAt, if_neg hb, hcell] at h
      simp at h
    | some cell =>
      rw [SpatialGrid2D.removeAt_eq hab hcell] at h
      obtain ⟨_, _, hN⟩ := getCell_eq_some_parts hcell
      have hspec := SpatialGrid2D.removeLoop_spec (SpatialGrid2D.matchPred x y v) cell
      have hsc := sumCounts_setCellN hN
        (SpatialGrid2D.removeLoop (SpatialGrid2D.matchPred x y v) cell 0 cell.length 0).1
      have hlen1 := hspec.1.length_eq
      have hsplit : cell.length =
          (cell.filter (SpatialGrid2D.matchPred x y v)).length +
          (cell.filter fun a => !SpatialGrid2D.matchPred x y v a).length :=
        List.length_eq_length_filter_add _
      have hcp := List.countP_eq_length_filter (SpatialGrid2D.matchPred x y v) cell
      by_cases hz : (SpatialGrid2D.removeLoop (SpatialGrid2D.matchPred x y v)
          cell 0 cell.length 0).2 = 0
      · rw [if_pos hz] at h
        simp at h
      · rw [if_neg hz] at h
        have hs1 : s1 = { s with
            buckets := setCellN s.buckets (s.bxIdx x).toNat (s.byIdx y).toNat
              (SpatialGrid2D.removeLoop (SpatialGrid2D.matchPred x y v) cell 0 cell.length 0).1
            size := s.size - ((SpatialGrid2D.removeLoop (SpatialGrid2D.matchPred x y v)
              cell 0 cell.length 0).2 : ℤ) } :=
          (congrArg Prod.snd h).symm
        subst hs1
        refine ⟨(SpatialGrid2D.removeLoop (SpatialGrid2D.matchPred x y v)
          cell 0 cell.length 0).2, rfl, ?_⟩
        show sumCounts (setCellN s.buckets (s.bxIdx x).toNat (s.byIdx y).toNat
          (SpatialGrid2D.removeLoop (SpatialGrid2D.matchPred x y v) cell 0 cell.length 0).1) +
          (SpatialGrid2D.removeLoop (SpatialGrid2D.matchPred x y v) cell 0 cell.length 0).2 =
          sumCounts s.buckets
        rw [hspec.2] at hz ⊢
        omega

theorem removeAllAt_ok_counts {T : Type} [DecidableEq T] {s s1 : SpatialGrid2D T}
    {x y : ℚ} {u : Unit} (h : s.removeAllAt x y = (.ok u, s1)) :
    ∃ k : ℕ, s1.size = s.size - (k : ℤ) ∧ sumCounts s1.buckets + k = sumCounts s.buckets := by
  by_cases hb : s.outOfBounds x y = true
  · rw [SpatialGrid2D.removeAllAt, if_pos hb] at h
    simp at h
  · have hab : s.InBounds x y := SpatialGrid2D.outOfBounds_eq_false.mp
      (by revert hb; cases s.outOfBounds x y <;> simp)
    cases hcell : getCell s.buckets (s.bxIdx x) (s.byIdx y) with
    | none =>
      rw [SpatialGrid2D.removeAllAt, if_neg hb, hcell] at h
      simp at h
    | some cell =>
      rw [SpatialGrid2D.removeAllAt_eq hab hcell] at h
      obtain ⟨_, _, hN⟩ := getCell_eq_some_parts hcell
      have hspec := SpatialGrid2D.removeLoop_spec (SpatialGrid2D.coordPred x y) cell
      have hsc := sumCounts_setCellN hN
        (SpatialGrid2D.removeLoop (SpatialGrid2D.coordPred x y) cell 0 cell.length 0).1
      have hlen1 := hspec.1.length_eq
      have hsplit : cell.length =
          (cell.filter (SpatialGrid2D.coordPred x y)).length +
          (cell.filter fun a => !SpatialGrid2D.coordPred x y a).length :=
        List.length_eq_length_filter_add _
      have hcp := List.countP_eq_length_filter (SpatialGrid2D.coordPred x y) cell
      have hs1 : s1 = { s with
          buckets := setCellN s.buckets (s.bxIdx x).toNat (s.byIdx y).toNat
            (SpatialGrid2D.removeLoop (SpatialGrid2D.coordPred x y) cell 0 cell.length 0).1
          size := s.size - ((SpatialGrid2D.removeLoop (SpatialGrid2D.coordPred x y)
            cell 0 cell.length 0).2 : ℤ) } :=
        (congrArg Prod.snd h).symm
      subst hs1
      refine ⟨(SpatialGrid2D.removeLoop (SpatialGrid2D.coordPred x y)
        cell 0 cell.length 0).2, rfl, ?_⟩
      show sumCounts (setCellN s.buckets (s.bxIdx x).toNat (s.byIdx y).toNat
        (SpatialGrid2D.removeLoop (SpatialGrid2D.coordPred x y) cell 0 cell.length 0).1) +
        (SpatialGrid2D.removeLoop (SpatialGrid2D.coordPred x y) cell 0 cell.length 0).2 =
        sumCounts s.buckets
      rw [hspec.2]
      omega

namespace SpatialGrid2D

/-- Counting through `resize`'s walk: every record is either destroyed
(one destructor-list entry) or re-filed (one bucket slot), so the
destructor-list growth plus the new bucket array's record count accounts
for every walked record. -/
theorem resizeLoop_ok_counts {T : Type} (gw gh bw bh : ℚ) (items : List (Item T)) :
    ∀ (nb : Buckets T) (acc : List (T × ℚ × ℚ)) (nb2 : Buckets T) (dst : List (T × ℚ × ℚ)),
    resizeLoop gw gh bw bh items nb acc = some (nb2, dst) →
    dst.length + sumCounts nb2 = acc.length + sumCounts nb + items.length := by
  induction items with
  | nil =>
    intro nb acc nb2 dst h
    obtain ⟨h1, h2⟩ := Prod.mk.injEq .. ▸ Option.some_inj.mp (h : some (nb, acc) = some (nb2, dst))
    subst h1
    subst h2
    simp
  | cons it rest ih =>
    intro nb acc nb2 dst h
    simp only [resizeLoop] at h
    by_cases hout : (decide (gw ≤ it.x) || decide (gh ≤ it.y)) = true
    · rw [if_pos hout] at h
      have := ih nb (acc ++ [(it.value, it.x, it.y)]) nb2 dst h
      simp only [List.length_append, List.length_cons, List.length_nil] at this
      simp only [List.length_cons]
      omega
    · rw [if_neg hout] at h
      cases hmod : modifyCell nb (jsTruncDiv it.x bw) (jsTruncDiv it.y bh)
          (fun cell => cell ++ [it]) with
      | none =>
        rw [hmod] at h
        exact absurd (h : (none : Option (Buckets T × List (T × ℚ × ℚ))) = some (nb2, dst))
          (by simp)
      | some nb1 =>
        rw [hmod] at h
        obtain ⟨c0, hget, hnb1⟩ := modifyCell_eq_some hmod
        obtain ⟨_, _, hN⟩ := getCell_eq_some_parts hget
        have hsc := sumCounts_setCellN hN (c0 ++ [it])
        simp only [List.length_append, List.length_cons, List.length_nil] at hsc
        have := ih nb1 acc nb2 dst (h : resizeLoop gw gh bw bh rest nb1 acc = some (nb2, dst))
        rw [hnb1] at this
        simp only [List.length_cons]
        omega

end SpatialGrid2D

theorem resize_ok_counts {T : Type} [DecidableEq T] {s s1 : SpatialGrid2D T}
    {gw gh bw bh : Option ℚ} {dst : List (T × ℚ × ℚ)}
    (h : s.resize gw gh bw bh = (.ok dst, s1)) :
    s1.size = s.size - (dst.length : ℤ) ∧
    sumCounts s1.buckets + dst.length = sumCounts s.buckets := by
  have hunfold : s.resize gw gh bw bh =
      match SpatialGrid2D.resizeLoop (gw.getD s.gridWidth) (gh.getD s.gridHeight)
        (bw.getD s.bucketWidth) (bh.getD s.bucketHeight) s.allItems
        (List.replicate (jsCeilDiv (gw.getD s.gridWidth) (bw.getD s.bucketWidth)).toNat
          (List.replicate (jsCeilDiv (gh.getD s.gridHeight) (bh.getD s.bucketHeight)).toNat []))
        [] with
      | none => (.error .typeError, s)
      | some (nb, destroyed) =>
        (.ok destroyed,
          { gridWidth := gw.getD s.gridWidth, gridHeight := gh.getD s.gridHeight,
            bucketWidth := bw.getD s.bucketWidth, bucketHeight := bh.getD s.bucketHeight,
            size := s.size - (destroyed.length : ℤ), buckets := nb }) := rfl
  rw [hunfold] at h
  cases hloop : SpatialGrid2D.resizeLoop (gw.getD s.gridWidth) (gh.getD s.gridHeight)
      (bw.getD s.bucketWidth) (bh.getD s.bucketHeight) s.allItems
      (List.replicate (jsCeilDiv (gw.getD s.gridWidth) (bw.getD s.bucketWidth)).toNat
        (List.replicate (jsCeilDiv (gh.getD s.gridHeight) (bh.getD s.bucketHeight)).toNat []))
      [] with
  | none =>
    rw [hloop] at h
    simp at h
  | some pr =>
    obtain ⟨nb, destroyed⟩ := pr
    rw [hloop] at h
    have hfst : (Except.ok destroyed : Except GridError (List (T × ℚ × ℚ))) = .ok dst :=
      congrArg Prod.fst h
    have hdst : destroyed = dst := by
      cases hfst
      rfl
    subst hdst
    have hs1 : s1 =
        { gridWidth := gw.getD s.gridWidth, gridHeight := gh.getD s.gridHeight,
          bucketWidth := bw.getD s.bucketWidth, bucketHeight := bh.getD s.bucketHeight,
          size := s.size - (destroyed.length : ℤ), buckets := nb } :=
      (congrArg Prod.snd h).symm
    subst hs1
    have hcounts := SpatialGrid2D.resizeLoop_ok_counts (gw.getD s.gridWidth)
      (gh.getD s.gridHeight) (bw.getD s.bucketWidth) (bh.getD s.bucketHeight) s.allItems
      _ _ _ _ hloop
    rw [sumCounts_replicate] at hcounts
    have hlen := length_allItems s
    refine ⟨rfl, ?_⟩
    show sumCounts nb + destroyed.length = sumCounts s.buckets
    simp only [List.length_nil] at hcounts
    omega

theorem clear_counts {T : Type} [DecidableEq T] (s : SpatialGrid2D T) :
    (s.clear).size = s.size - (s.allItems.length : ℤ) ∧
    sumCounts (s.clear).buckets = 0 := by
  refine ⟨rfl, ?_⟩
  show sumCounts (s.buckets.map fun row => row.map fun _ => []) = 0
  rw [sumCounts]
  simp [List.map_map, Function.comp_def]

theorem mk2D_counts {T : Type} [DecidableEq T] {gw gh bw bh : ℚ} {s0 : SpatialGrid2D T}
    (h : SpatialGrid2D.mk2D gw gh bw bh = some s0) :
    s0.size = 0 ∧ sumCounts s0.buckets = 0 := by
  rw [SpatialGrid2D.mk2D] at h
  split at h
  · cases h
  split at h
  · cases h
  split at h
  · cases h
  split at h
  · cases h
  obtain rfl := Option.some_inj.mp h
  exact ⟨rfl, sumCounts_replicate _ _⟩

theorem gridStep_preserves {T : Type} [DecidableEq T] {s s1 : SpatialGrid2D T}
    {op : GridOp T} (h : gridStep s op = some s1)
    (hinv : s.size = (sumCounts s.buckets : ℤ)) :
    s1.size = (sumCounts s1.buckets : ℤ) := by
  cases op with
  | insertAt x y v =>
    simp only [gridStep] at h
    cases hcall : s.insertAt x y v with
    | mk r s2 =>
      rw [hcall] at h
      cases r with
      | error e => exact Option.noConfusion (h : (none : Option (SpatialGrid2D T)) = some s1)
      | ok u =>
        obtain rfl := Option.some_inj.mp (h : some s2 = some s1)
        obtain ⟨hsz, hsc⟩ := insertAt_ok_counts hcall
        rw [hsz, hsc]
        push_cast
        omega
  | removeAt x y v =>
    simp only [gridStep] at h
    cases hcall : s.removeAt x y v with
    | mk r s2 =>
      rw [hcall] at h
      cases r with
      | error e => exact Option.noConfusion (h : (none : Option (SpatialGrid2D T)) = some s1)
      | ok u =>
        obtain rfl := Option.some_inj.mp (h : some s2 = some s1)
        obtain ⟨k, hsz, hsc⟩ := removeAt_ok_counts hcall
        rw [hsz]
        omega
  | removeAllAt x y =>
    simp only [gridStep] at h
    cases hcall : s.removeAllAt x y with
    | mk r s2 =>
      rw [hcall] at h
      cases r with
      | error e => exact Option.noConfusion (h : (none : Option (SpatialGrid2D T)) = some s1)
      | ok u =>
        obtain rfl := Option.some_inj.mp (h : some s2 = some s1)
        obtain ⟨k, hsz, hsc⟩ := removeAllAt_ok_counts hcall
        rw [hsz]
        omega
  | move fromX fromY toX toY v =>
    simp only [gridStep] at h
    cases hrm : s.removeAt fromX fromY v with
    | mk r srm =>
      cases r with
      | error e =>
        have hmv : s.move fromX fromY toX toY v = (.error e, srm) := by
          rw [SpatialGrid2D.move, hrm]
        rw [hmv] at h
        exact Option.noConfusion (h : (none : Option (SpatialGrid2D T)) = some s1)
      | ok u0 =>
        have hmv : s.move fromX fromY toX toY v = srm.insertAt toX toY v := by
          rw [SpatialGrid2D.move, hrm]
        rw [hmv] at h
        obtain ⟨k, hsz0, hsc0⟩ := removeAt_ok_counts hrm
        have hinv1 : srm.size = (sumCounts srm.buckets : ℤ) := by omega
        cases hins : srm.insertAt toX toY v with
        | mk r2 s2 =>
          rw [hins] at h
          cases r2 with
          | error e =>
            exact Option.noConfusion (h : (none : Option (SpatialGrid2D T)) = some s1)
          | ok u2 =>
            obtain rfl := Option.some_inj.mp (h : some s2 = some s1)
            obtain ⟨hsz, hsc⟩ := insertAt_ok_counts hins
            rw [hsz, hsc]
            push_cast
            omega
  | resize gw gh bw bh =>
    simp only [gridStep] at h
    cases hcall : s.resize gw gh bw bh with
    | mk r s2 =>
      rw [hcall] at h
      cases r with
      | error e => exact Option.noConfusion (h : (none : Option (SpatialGrid2D T)) = some s1)
      | ok dst =>
        obtain rfl := Option.some_inj.mp (h : some s2 = some s1)
        obtain ⟨hsz, hsc⟩ := resize_ok_counts hcall
        rw [hsz]
        omega
  | clear =>
    simp only [gridStep] at h
    obtain rfl := Option.some_inj.mp h
    obtain ⟨hsz, hsc⟩ := clear_counts s
    have hlen := length_allItems s
    rw [hsz, hsc]
    omega

theorem runOps_preserves {T : Type} [DecidableEq T] (ops : List (GridOp T)) :
    ∀ s s2 : SpatialGrid2D T, runOps s ops = some s2 →
      s.size = (sumCounts s.buckets : ℤ) → s2.size = (sumCounts s2.buckets : ℤ) := by
  induction ops with
  | nil =>
    intro s s2 h hinv
    obtain rfl := Option.some_inj.mp (h : some s = some s2)
    exact hinv
  | cons op rest ih =>
    intro s s2 h hinv
    simp only [runOps] at h
    cases hstep : gridStep s op with
    | none =>
      rw [hstep] at h
      exact Option.noConfusion (h : (none : Option (SpatialGrid2D T)) = some s2)
    | some s1 =>
      rw [hstep] at h
      exact ih s1 s2 (h : runOps s1 rest = some s2) (gridStep_preserves hstep hinv)

/-- C1: starting from any freshly constructed `SpatialGrid2D` and running any
sequence of `insertAt`, `removeAt`, `removeAllAt`, `move`, `resize` and
`clear` calls in which every call completes without throwing, the `size`
property equals the number of records `forEach` visits (the sum of all
bucket lengths). -/
theorem size_forEach_invariant {T : Type} [DecidableEq T] (gw gh bw bh : ℚ)
    (s0 s2 : SpatialGrid2D T) (ops : List (GridOp T))
    (h0 : SpatialGrid2D.mk2D gw gh bw bh = some s0)
    (hrun : runOps s0 ops = some s2) :
    s2.size = (s2.forEachCalls.length : ℤ) := by
  obtain ⟨hsz, hsc⟩ := mk2D_counts h0
  have h2 := runOps_preserves ops s0 s2 hrun (by rw [hsz, hsc]; rfl)
  rw [SpatialGrid2D.forEachCalls, List.length_map, length_allItems]
  exact h2

/-- Witness for C1: from the freshly built 9×7 grid, insert at `(1, 1)` and
`(4, 5)` and remove the first record again; the resulting state has
`size = 1` and one `forEach` visit. -/
theorem size_forEach_invariant_witness :
    gridC1res.size = (gridC1res.forEachCalls.length : ℤ) :=
  size_forEach_invariant 9 7 3 4 gridW gridC1res opsC1 (by decide) (by decide)

end EDS
